import Mathlib

/-!
Shallow embedding of the Order Lifecycle & Receiving Reconciliation Engine of
the `inventory_management` backend (`app/api/endpoints/orders.py` and
`app/api/endpoints/admin.py`), together with theorems settling the frozen
claims about it.

Conventions of the embedding:
* SQLAlchemy `Float` quantity/price/stock columns are modelled as `ℚ`;
  nullable columns as `Option _`.
* The database rows visible to one request are modelled as explicit lists
  (`List InventoryItem`, `Order.items : List OrderItem`); an aborted request
  (`HTTPException`) is an `Except.error`, and since every endpoint body is one
  transaction, an error leaves the caller's state unchanged.
* Timestamps (`datetime.utcnow()`) are an abstract `now : Nat` parameter.
* Authentication, property lookup, logging and e-mail dispatch are outside the
  modelled core (the spec lists them as external collaborators) and are
  dropped; everything else follows the Python line by line.
-/

namespace InventoryMgmt

/-! ## Name normalizer and similarity scorer (`admin.py`) -/

/-- Splitting into whitespace-separated words, as Python `s.split()`: runs of
whitespace separate words and produce no empty pieces.  (Written over
`List Char` with structural recursion so that proofs evaluate in the
kernel; the core `String.split` does not kernel-reduce.) -/
def wordsAux : List Char → List Char → List String
  | [], cur => if cur.isEmpty then [] else [String.mk cur.reverse]
  | c :: cs, cur =>
    if c.isWhitespace then
      if cur.isEmpty then wordsAux cs [] else String.mk cur.reverse :: wordsAux cs []
    else wordsAux cs (c :: cur)

/-- Python `s.split()`. -/
def splitWs (s : String) : List String :=
  wordsAux s.data []

/-- Python `" ".join(ws)`. -/
def joinSpace : List String → String
  | [] => ""
  | [w] => w
  | w :: ws => w ++ " " ++ joinSpace ws

/-- Python `s.lower()` (ASCII case folding, as `str.lower` on these names). -/
def lowerStr (s : String) : String :=
  String.mk (s.data.map Char.toLower)

/-- Python `s.strip()`: drop leading and trailing whitespace. -/
def stripStr (s : String) : String :=
  String.mk (((s.data.dropWhile Char.isWhitespace).reverse.dropWhile Char.isWhitespace).reverse)

/-- Python `s.replace(a, b)` for a single-character pattern and a
single-character replacement. -/
def replaceChar (s : String) (a b : Char) : String :=
  String.mk (s.data.map (fun c => if c = a then b else c))

/-- Python `s.replace(a, "")` for a single-character pattern: delete every
occurrence. -/
def removeChar (s : String) (a : Char) : String :=
  String.mk (s.data.filter (fun c => c ≠ a))

/-- The apostrophe character, used by the normalizer. -/
def apostrophe : Char := Char.ofNat 39

/-- `normalize_item_name` from `admin.py`: lowercase, strip, replace `,` and
`-` by spaces, delete apostrophes, collapse whitespace.  Python returns `""`
for a falsy (empty) input. -/
def normalize_item_name (name : String) : String :=
  if name = "" then ""
  else
    let normalized := stripStr (lowerStr name)
    let normalized := removeChar (replaceChar (replaceChar normalized ',' ' ') '-' ' ') apostrophe
    joinSpace (splitWs normalized)

/-- The stop-word set dropped by `get_name_tokens`. -/
def stop_words : Finset String :=
  (["the", "a", "an", "of", "and", "or", "for", "in", "on",
    "lb", "oz", "ct", "pk", "bag", "box", "case"] : List String).toFinset

/-- `get_name_tokens` from `admin.py`: token set of the normalized name minus
the stop words. -/
def get_name_tokens (name : String) : Finset String :=
  (splitWs (normalize_item_name name)).toFinset \ stop_words

/-- Python substring containment `sub in hay`. -/
def strContains (hay sub : String) : Bool :=
  (List.range (hay.data.length + 1)).any (fun i => sub.data.isPrefixOf (hay.data.drop i))

/-- `calculate_name_similarity` from `admin.py`, scores in `ℚ` standing for
the Python floats.  Mirrors the source: exact normalized match short-circuits
to `1`; an empty token set on either side returns `0`; otherwise Jaccard
similarity, a `0.3` bonus when one normalized string contains the other, a
floor of `0.85` when one token set is a subset of the other, capped at `1`. -/
def calculate_name_similarity (name1 name2 : String) : ℚ :=
  let norm1 := normalize_item_name name1
  let norm2 := normalize_item_name name2
  if norm1 = norm2 then 1
  else
    let tokens1 := get_name_tokens name1
    let tokens2 := get_name_tokens name2
    if tokens1 = ∅ ∨ tokens2 = ∅ then 0
    else
      let union := tokens1 ∪ tokens2
      let jaccard : ℚ := if union ≠ ∅ then ((tokens1 ∩ tokens2).card : ℚ) / (union.card : ℚ) else 0
      let contains_bonus : ℚ := if strContains norm2 norm1 ∨ strContains norm1 norm2 then 3/10 else 0
      let jaccard := if tokens1 ⊆ tokens2 ∨ tokens2 ⊆ tokens1 then max jaccard (17/20) else jaccard
      min 1 (jaccard + contains_bonus)

/-- The §4.2/C6 claim's scoring formula, written from the spec's words: when
the normalized strings differ the score is `min(1, J + bonus)` where `J` is
the Jaccard similarity raised to a `0.85` floor under subset containment and
`bonus` is `0.3` under substring containment.  (No empty-token-set guard.) -/
def claimScore (name1 name2 : String) : ℚ :=
  let norm1 := normalize_item_name name1
  let norm2 := normalize_item_name name2
  if norm1 = norm2 then 1
  else
    let tokens1 := get_name_tokens name1
    let tokens2 := get_name_tokens name2
    let jaccard : ℚ := ((tokens1 ∩ tokens2).card : ℚ) / ((tokens1 ∪ tokens2).card : ℚ)
    let floored : ℚ := if tokens1 ⊆ tokens2 ∨ tokens2 ⊆ tokens1 then max jaccard (17/20) else jaccard
    let bonus : ℚ := if strContains norm2 norm1 ∨ strContains norm1 norm2 then 3/10 else 0
    min 1 (floored + bonus)

/-- The C6 claim's formula amended with the one guard the code adds: if either
stop-word-filtered token set is empty (and the normalized strings differ), the
score is `0`. -/
def claimScoreAmended (name1 name2 : String) : ℚ :=
  let norm1 := normalize_item_name name1
  let norm2 := normalize_item_name name2
  if norm1 = norm2 then 1
  else
    let tokens1 := get_name_tokens name1
    let tokens2 := get_name_tokens name2
    if tokens1 = ∅ ∨ tokens2 = ∅ then 0
    else
      let jaccard : ℚ := ((tokens1 ∩ tokens2).card : ℚ) / ((tokens1 ∪ tokens2).card : ℚ)
      let floored : ℚ := if tokens1 ⊆ tokens2 ∨ tokens2 ⊆ tokens1 then max jaccard (17/20) else jaccard
      let bonus : ℚ := if strContains norm2 norm1 ∨ strContains norm1 norm2 then 3/10 else 0
      min 1 (floored + bonus)

/-! ## Data model (`models/inventory.py`, `models/order.py`)

SQLAlchemy `Float` columns are `ℚ`, nullable columns `Option _`,
`DateTime` columns abstract `Nat` instants. -/

/-- A row of `inventory_items` (the columns the modelled endpoints read or
write). -/
structure InventoryItem where
  id : Nat
  property_id : Nat
  name : String
  unit : String
  unit_price : Option ℚ
  supplier_id : Option Nat
  current_stock : Option ℚ
  is_recurring : Bool
  is_active : Bool
deriving DecidableEq, Repr

/-- A row of `order_items` (the columns the modelled endpoints read or
write).  `issue_photo_url`, assigned by the receiving endpoint, has no
backing column in `models/order.py` (and no migration adds one), so that
write is a transient unmapped attribute: it is not part of the persisted
row and the structure deliberately omits it. -/
structure OrderItem where
  id : Nat
  inventory_item_id : Option Nat
  custom_item_name : Option String
  custom_item_description : Option String
  supplier_id : Option Nat
  flag : String
  requested_quantity : ℚ
  approved_quantity : Option ℚ
  received_quantity : Option ℚ
  unit : Option String
  unit_price : Option ℚ
  camp_notes : Option String
  reviewer_notes : Option String
  receiving_notes : Option String
  is_received : Bool
  has_issue : Bool
  issue_description : Option String
deriving DecidableEq, Repr

/-- The `OrderStatus` string enum. -/
inductive OrderStatus where
  | draft | submitted | under_review | approved | changes_requested
  | ordered | partially_received | received | cancelled
deriving DecidableEq, Repr

/-- A row of `orders` with its item collection (the columns the modelled
endpoints read or write; `order_number`, `week_of` and audit columns carry no
logic and are omitted). -/
structure Order where
  id : Nat
  property_id : Nat
  status : OrderStatus
  items : List OrderItem
  submitted_at : Option Nat
  reviewed_by : Option Nat
  reviewed_at : Option Nat
  review_notes : Option String
  approved_at : Option Nat
  ordered_at : Option Nat
  received_at : Option Nat
  estimated_total : ℚ
  notes : Option String
deriving DecidableEq, Repr

/-- An aborted request (`HTTPException`); the transaction never commits, so
the caller's state is unchanged. -/
inductive ApiError where
  | wrongState | emptyOrder | invalidItems | itemNotFound
deriving DecidableEq, Repr

/-! ## Python truthiness helpers (`or` / `if x:` on nullable values) -/

/-- Python truthiness of an optional string: `None` and `""` are falsy. -/
def strTruthy (o : Option String) : Bool :=
  o.getD "" ≠ ""

/-- Python truthiness of an optional number: `None` and `0` are falsy. -/
def qTruthy (o : Option ℚ) : Bool :=
  o.getD 0 ≠ 0

/-- Python truthiness of an optional integer id: `None` and `0` are falsy. -/
def natTruthy (o : Option Nat) : Bool :=
  o.getD 0 ≠ 0

/-! ## Fuzzy matcher resolution (`admin.py`) -/

/-- `find_matching_inventory_item` from `admin.py`: score every active
inventory item of the property, keep the strictly-highest-scoring candidate,
and return it only when its score reaches the threshold.  (The `db.query`
filter is the list filter; the logging side effect is dropped.) -/
def find_matching_inventory_item (item_name : String) (property_id : Nat)
    (db : List InventoryItem) (similarity_threshold : ℚ) :
    Option InventoryItem × ℚ :=
  let inventory_items := db.filter (fun i => i.property_id = property_id ∧ i.is_active = true)
  let best := inventory_items.foldl
    (fun acc inv_item =>
      let score := calculate_name_similarity item_name inv_item.name
      if acc.2 < score then (some inv_item, score) else acc)
    ((none : Option InventoryItem), (0 : ℚ))
  if similarity_threshold ≤ best.2 then (best.1, best.2) else (none, 0)

/-- The C7 claim's "highest similarity score over the candidate set"
(`0` over the empty set). -/
def bestCandidateScore (item_name : String) (cands : List InventoryItem) : ℚ :=
  cands.foldl (fun m i => max m (calculate_name_similarity item_name i.name)) 0

/-- The candidate set the matcher scores: the property's active items. -/
def matchCandidates (property_id : Nat) (db : List InventoryItem) : List InventoryItem :=
  db.filter (fun i => i.property_id = property_id ∧ i.is_active = true)

/-! ## SQL `ILIKE` (used by the ad-hoc item search in `orders.py`) -/

/-- SQL `LIKE` pattern matching over characters: `%` matches any sequence,
`_` any single character.  Written with an explicit fuel (each step shortens
pattern or subject, so `p.length + s.length + 1` steps always suffice) to
keep the recursion structural and kernel-evaluable. -/
def likeCharsFuel : Nat → List Char → List Char → Bool
  | 0, _, _ => false
  | _ + 1, [], [] => true
  | _ + 1, [], _ :: _ => false
  | fuel + 1, p :: ps, [] => p = '%' && likeCharsFuel fuel ps []
  | fuel + 1, p :: ps, c :: ss =>
    if p = '%' then likeCharsFuel fuel ps (c :: ss) || likeCharsFuel fuel (p :: ps) ss
    else (decide (p = '_') || decide (p = c)) && likeCharsFuel fuel ps ss

/-- SQL `LIKE` over character lists. -/
def likeChars (p s : List Char) : Bool :=
  likeCharsFuel (p.length + s.length + 1) p s

/-- SQL `column ILIKE pattern`: case-insensitive `LIKE`. -/
def ilike (s pattern : String) : Bool :=
  likeChars (lowerStr pattern).data (lowerStr s).data

/-! ## Order endpoints (`orders.py`) -/

/-- `calculate_order_total`: `Σ (approved_quantity ?? requested_quantity) *
(unit_price or 0)` over the order's items. -/
def calculate_order_total (order : Order) : ℚ :=
  order.items.foldl
    (fun total item =>
      total + (item.approved_quantity.getD item.requested_quantity) *
        (item.unit_price.getD 0))
    0

/-- The request body of an item creation (`OrderItemCreate`). -/
structure OrderItemCreate where
  inventory_item_id : Option Nat
  custom_item_name : Option String
  custom_item_description : Option String
  supplier_id : Option Nat
  flag : Option String
  requested_quantity : ℚ
  unit : Option String
  unit_price : Option ℚ
  camp_notes : Option String
deriving DecidableEq, Repr

/-- The custom-item materialization shared by `create_order` and
`add_receiving_item`: look for an existing non-recurring inventory item of the
property whose name matches `custom_item_name.strip()` case-insensitively
(`ILIKE`); create a fresh non-recurring active item with zero stock when none
exists.  Returns the linked inventory id and the (possibly extended)
inventory table. -/
def find_or_create_nonrecurring (property_id : Nat) (cname : String)
    (unit : Option String) (db : List InventoryItem) (fresh : Nat) :
    Nat × List InventoryItem :=
  match db.find? (fun i =>
      i.property_id = property_id ∧ ilike i.name (stripStr cname) ∧ i.is_recurring = false) with
  | some existing_item => (existing_item.id, db)
  | none =>
    let new_inv_item : InventoryItem :=
      { id := fresh
        property_id := property_id
        name := stripStr cname
        unit := if strTruthy unit then unit.getD "Each" else "Each"
        unit_price := none
        supplier_id := none
        current_stock := some 0
        is_recurring := false
        is_active := true }
    (fresh, db ++ [new_inv_item])

/-- A fresh inventory id: one more than the largest id in the table. -/
def freshInvId (db : List InventoryItem) : Nat :=
  (db.map (fun i => i.id)).foldl max 0 + 1

/-- The per-item body of `create_order`'s item loop: materialize an ad-hoc
custom item (no catalog link, truthy free-text name) into the inventory, then
build the `OrderItem` row. -/
def create_order_item (property_id : Nat) (item_data : OrderItemCreate)
    (db : List InventoryItem) (item_id : Nat) : OrderItem × List InventoryItem :=
  let r : Option Nat × List InventoryItem :=
    if item_data.inventory_item_id = none ∧ strTruthy item_data.custom_item_name then
      let rc := find_or_create_nonrecurring property_id
        (item_data.custom_item_name.getD "") item_data.unit db (freshInvId db)
      (some rc.1, rc.2)
    else (item_data.inventory_item_id, db)
  let inventory_item_id := r.1
  let order_item : OrderItem :=
    { id := item_id
      inventory_item_id := inventory_item_id
      custom_item_name := if inventory_item_id = none then item_data.custom_item_name else none
      custom_item_description := item_data.custom_item_description
      supplier_id := item_data.supplier_id
      flag := if strTruthy item_data.flag then item_data.flag.getD "manual" else "manual"
      requested_quantity := item_data.requested_quantity
      approved_quantity := none
      received_quantity := none
      unit := item_data.unit
      unit_price := item_data.unit_price
      camp_notes := item_data.camp_notes
      reviewer_notes := none
      receiving_notes := none
      is_received := false
      has_issue := false
      issue_description := none }
  (order_item, r.2)

/-- `create_order`: build a draft order from the request, materializing ad-hoc
custom items, and set the estimated total.  Item rows receive ids
`base_item_id`, `base_item_id + 1`, …. -/
def create_order (property_id : Nat) (items_data : List OrderItemCreate)
    (notes : Option String) (db : List InventoryItem) (order_id : Nat)
    (base_item_id : Nat) : Order × List InventoryItem :=
  let st := items_data.foldl
    (fun (st : List OrderItem × List InventoryItem × Nat) item_data =>
      let r := create_order_item property_id item_data st.2.1 st.2.2
      (st.1 ++ [r.1], r.2, st.2.2 + 1))
    ([], db, base_item_id)
  let order : Order :=
    { id := order_id
      property_id := property_id
      status := .draft
      items := st.1
      submitted_at := none
      reviewed_by := none
      reviewed_at := none
      review_notes := none
      approved_at := none
      ordered_at := none
      received_at := none
      estimated_total := 0
      notes := notes }
  ({ order with estimated_total := calculate_order_total order }, st.2.1)

/-- `submit_order`: draft with at least one item becomes `submitted`. -/
def submit_order (order : Order) (notes : Option String) (now : Nat) :
    Except ApiError Order :=
  if order.status ≠ .draft then .error .wrongState
  else if order.items.length = 0 then .error .emptyOrder
  else
    let order := { order with
      status := .submitted
      submitted_at := some now
      notes := if strTruthy notes then notes else order.notes }
    .ok { order with estimated_total := calculate_order_total order }

/-- `withdraw_order`: submitted/under_review/approved back to draft. -/
def withdraw_order (order : Order) : Except ApiError Order :=
  if order.status = .submitted ∨ order.status = .under_review ∨ order.status = .approved then
    .ok { order with status := .draft, submitted_at := none }
  else .error .wrongState

/-- One entry of `OrderReviewRequest.item_updates` (a Python dict:
`none` in the outer `Option` means the key is absent). -/
structure ReviewItemUpdate where
  item_id : Option Nat
  approved_quantity : Option (Option ℚ)
  reviewer_notes : Option (Option String)
deriving DecidableEq, Repr

/-- The body of `OrderReviewRequest`. -/
structure OrderReviewRequest where
  action : String
  review_notes : Option String
  item_updates : List ReviewItemUpdate
deriving DecidableEq, Repr

/-- Replace (all copies of) the item with id `iid` by `f` applied to the
first one — the list-level rendering of mutating the ORM row found by
`db.query(OrderItem).filter(id == iid)`. -/
def updateItemById (items : List OrderItem) (iid : Nat) (f : OrderItem → OrderItem) :
    List OrderItem :=
  match items.find? (fun i => i.id = iid) with
  | none => items
  | some item => items.map (fun i => if i.id = iid then f item else i)

/-- `review_order`: apply optional per-item updates, record the reviewer,
then dispatch on the action string (`approve` / `request_changes` /
`reject`; any other string changes nothing beyond the reviewer fields). -/
def review_order (order : Order) (request : OrderReviewRequest)
    (reviewer : Nat) (now : Nat) : Except ApiError Order :=
  if ¬ (order.status = .submitted ∨ order.status = .under_review) then .error .wrongState
  else
    let items := request.item_updates.foldl
      (fun items u =>
        match u.item_id with
        | none => items
        | some iid =>
          updateItemById items iid (fun item =>
            let item := match u.approved_quantity with
              | some v => { item with approved_quantity := v }
              | none => item
            match u.reviewer_notes with
            | some v => { item with reviewer_notes := v }
            | none => item))
      order.items
    let order := { order with
      items := items
      reviewed_by := some reviewer
      reviewed_at := some now
      review_notes := request.review_notes }
    let order :=
      if request.action = "approve" then
        { order with
          status := .approved
          approved_at := some now
          items := order.items.map (fun (item : OrderItem) =>
            if item.approved_quantity = none then
              { item with approved_quantity := some item.requested_quantity }
            else item) }
      else if request.action = "request_changes" then
        { order with status := .changes_requested }
      else if request.action = "reject" then
        { order with status := .cancelled }
      else order
    .ok { order with estimated_total := calculate_order_total order }

/-- `resubmit_order`: from changes_requested/draft with at least one item,
clear every item's approval data and the order's reviewer fields and submit
afresh. -/
def resubmit_order (order : Order) (notes : Option String) (now : Nat) :
    Except ApiError Order :=
  if ¬ (order.status = .changes_requested ∨ order.status = .draft) then .error .wrongState
  else if order.items.length = 0 then .error .emptyOrder
  else
    let order := { order with
      items := (order.items.map (fun (item : OrderItem) =>
        { item with approved_quantity := none, reviewer_notes := none }))
      status := .submitted
      submitted_at := some now
      reviewed_by := none
      reviewed_at := none
      review_notes := none }
    let order := { order with notes := if strTruthy notes then notes else order.notes }
    .ok { order with estimated_total := calculate_order_total order }

/-- `mark_order_ordered`: approved becomes ordered. -/
def mark_order_ordered (order : Order) (now : Nat) : Except ApiError Order :=
  if order.status ≠ .approved then .error .wrongState
  else .ok { order with status := .ordered, ordered_at := some now }

/-- `unmark_order_ordered`: ordered reverts to approved. -/
def unmark_order_ordered (order : Order) : Except ApiError Order :=
  if order.status ≠ .ordered then .error .wrongState
  else .ok { order with status := .approved, ordered_at := none }

/-- The body of `OrderItemUpdate` (supervisor item edit). -/
structure OrderItemUpdate where
  approved_quantity : Option ℚ
  reviewer_notes : Option String
  supplier_id : Option Nat
deriving DecidableEq, Repr

/-- `update_order_item`: supervisor edits an item of an order under review;
a first edit moves a `submitted` order to `under_review`. -/
def update_order_item (order : Order) (item_id : Nat) (item_data : OrderItemUpdate) :
    Except ApiError Order :=
  if ¬ (order.status = .submitted ∨ order.status = .under_review) then .error .wrongState
  else if ¬ (order.items.any (fun i => i.id = item_id)) then .error .itemNotFound
  else
    let items := updateItemById order.items item_id (fun item =>
      let item := match item_data.approved_quantity with
        | some v => { item with approved_quantity := some v }
        | none => item
      let item := match item_data.reviewer_notes with
        | some v => { item with reviewer_notes := some v }
        | none => item
      match item_data.supplier_id with
      | some v => { item with supplier_id := some v }
      | none => item)
    let order := { order with items := items }
    let order :=
      if order.status = .submitted then { order with status := .under_review } else order
    .ok { order with estimated_total := calculate_order_total order }

/-- `update_draft_order_item`: the creator edits quantity/unit in a
draft/changes_requested order. -/
def update_draft_order_item (order : Order) (item_id : Nat) (quantity : ℚ)
    (unit : Option String) : Except ApiError Order :=
  if ¬ (order.status = .draft ∨ order.status = .changes_requested) then .error .wrongState
  else if ¬ (order.items.any (fun i => i.id = item_id)) then .error .itemNotFound
  else
    let items := updateItemById order.items item_id (fun item =>
      let item := { item with requested_quantity := quantity }
      match unit with
      | some u => { item with unit := some u }
      | none => item)
    let order := { order with items := items }
    .ok { order with estimated_total := calculate_order_total order }

/-- `delete_order_item`: remove an item from a draft/changes_requested
order. -/
def delete_order_item (order : Order) (item_id : Nat) : Except ApiError Order :=
  if ¬ (order.status = .draft ∨ order.status = .changes_requested) then .error .wrongState
  else if ¬ (order.items.any (fun i => i.id = item_id)) then .error .itemNotFound
  else
    let order := { order with items := order.items.eraseP (fun i => i.id = item_id) }
    .ok { order with estimated_total := calculate_order_total order }

/-- `add_order_item`: append an item to a draft order (no materialization,
custom name kept verbatim). -/
def add_order_item (order : Order) (item_data : OrderItemCreate) (item_id : Nat) :
    Except ApiError Order :=
  if order.status ≠ .draft then .error .wrongState
  else
    let order_item : OrderItem :=
      { id := item_id
        inventory_item_id := item_data.inventory_item_id
        custom_item_name := item_data.custom_item_name
        custom_item_description := item_data.custom_item_description
        supplier_id := item_data.supplier_id
        flag := if strTruthy item_data.flag then item_data.flag.getD "manual" else "manual"
        requested_quantity := item_data.requested_quantity
        approved_quantity := none
        received_quantity := none
        unit := item_data.unit
        unit_price := item_data.unit_price
        camp_notes := item_data.camp_notes
        reviewer_notes := none
        receiving_notes := none
        is_received := false
        has_issue := false
        issue_description := none }
    let order := { order with items := order.items ++ [order_item] }
    .ok { order with estimated_total := calculate_order_total order }

/-- The unit/price/supplier enrichment shared by `add_review_item` and
`add_receiving_item`: fill falsy fields from the referenced inventory row. -/
def enrichFromInventory (db : List InventoryItem) (inventory_item_id : Option Nat)
    (unit : Option String) (unit_price : Option ℚ) (supplier_id : Option Nat) :
    Option String × Option ℚ × Option Nat :=
  match db.find? (fun i => some i.id = inventory_item_id) with
  | none => (unit, unit_price, supplier_id)
  | some inv_item =>
    ( if strTruthy unit then unit else some inv_item.unit
    , if qTruthy unit_price then unit_price else inv_item.unit_price
    , if natTruthy supplier_id then supplier_id else inv_item.supplier_id )

/-- `add_review_item`: supervisor appends an item (auto-approved at the
requested quantity) to an order under review. -/
def add_review_item (order : Order) (item_data : OrderItemCreate)
    (db : List InventoryItem) (item_id : Nat) : Except ApiError Order :=
  if ¬ (order.status = .submitted ∨ order.status = .under_review) then .error .wrongState
  else
    let e :=
      if natTruthy item_data.inventory_item_id then
        enrichFromInventory db item_data.inventory_item_id
          item_data.unit item_data.unit_price item_data.supplier_id
      else (item_data.unit, item_data.unit_price, item_data.supplier_id)
    let order_item : OrderItem :=
      { id := item_id
        inventory_item_id := item_data.inventory_item_id
        custom_item_name :=
          if item_data.inventory_item_id = none then item_data.custom_item_name else none
        custom_item_description := item_data.custom_item_description
        supplier_id := e.2.2
        flag := "manual"
        requested_quantity := item_data.requested_quantity
        approved_quantity := some item_data.requested_quantity
        received_quantity := none
        unit := e.1
        unit_price := e.2.1
        camp_notes := item_data.camp_notes
        reviewer_notes := none
        receiving_notes := none
        is_received := false
        has_issue := false
        issue_description := none }
    let order := { order with items := order.items ++ [order_item] }
    .ok { order with estimated_total := calculate_order_total order }

/-- `add_receiving_item`: append a late-shipment item to an
ordered/partially_received order, materializing ad-hoc custom items like
`create_order` does. -/
def add_receiving_item (order : Order) (item_data : OrderItemCreate)
    (db : List InventoryItem) (item_id : Nat) :
    Except ApiError (Order × List InventoryItem) :=
  if ¬ (order.status = .ordered ∨ order.status = .partially_received) then .error .wrongState
  else
    let r : (Option String × Option ℚ × Option Nat) × Option Nat × List InventoryItem :=
      if natTruthy item_data.inventory_item_id then
        ( enrichFromInventory db item_data.inventory_item_id
            item_data.unit item_data.unit_price item_data.supplier_id
        , item_data.inventory_item_id, db )
      else if strTruthy item_data.custom_item_name then
        let rc := find_or_create_nonrecurring order.property_id
          (item_data.custom_item_name.getD "") item_data.unit db (freshInvId db)
        ((item_data.unit, item_data.unit_price, item_data.supplier_id), some rc.1, rc.2)
      else ((item_data.unit, item_data.unit_price, item_data.supplier_id),
            item_data.inventory_item_id, db)
    let inventory_item_id := r.2.1
    let order_item : OrderItem :=
      { id := item_id
        inventory_item_id := inventory_item_id
        custom_item_name :=
          if inventory_item_id = none then item_data.custom_item_name else none
        custom_item_description := item_data.custom_item_description
        supplier_id := r.1.2.2
        flag := "manual"
        requested_quantity := item_data.requested_quantity
        approved_quantity := some item_data.requested_quantity
        received_quantity := none
        unit := r.1.1
        unit_price := r.1.2.1
        camp_notes := item_data.camp_notes
        reviewer_notes := none
        receiving_notes := none
        is_received := false
        has_issue := false
        issue_description := none }
    let order := { order with items := order.items ++ [order_item] }
    .ok ({ order with estimated_total := calculate_order_total order }, r.2.2)

/-! ## Receiving reconciliation (`receive_order_items`) -/

/-- One entry of `OrderReceiveRequest.items`. -/
structure OrderReceiveItemRequest where
  item_id : Nat
  received_quantity : ℚ
  has_issue : Bool
  issue_description : Option String
  issue_photo_url : Option String
  receiving_notes : Option String
deriving DecidableEq, Repr

/-- The body of `OrderReceiveRequest`. -/
structure OrderReceiveRequest where
  items : List OrderReceiveItemRequest
  finalize : Bool
deriving DecidableEq, Repr

/-- A receiving report with its `issue_photo_url` erased: the projection of a
request onto the fields backed by `order_items` columns. -/
def eraseIssuePhoto (r : OrderReceiveItemRequest) : OrderReceiveItemRequest :=
  { r with issue_photo_url := none }

/-- The per-item field writes of the receiving loop: record the reported
quantity, issue data and notes; finalizing also marks the item received.
(The source also assigns `item.issue_photo_url`, but that attribute has no
backing column, so nothing of it reaches the persisted row.) -/
def applyReq (finalize : Bool) (item : OrderItem) (req : OrderReceiveItemRequest) :
    OrderItem :=
  let item := { item with
    received_quantity := some req.received_quantity
    has_issue := req.has_issue
    issue_description := req.issue_description
    receiving_notes := req.receiving_notes }
  if finalize then { item with is_received := true } else item

/-- One iteration of the receiving loop: update the targeted item's fields
and, when finalizing, adjust the linked inventory row's stock — by the
difference `new - old` when the item was already received, by the full new
quantity otherwise. -/
def receive_item_step (finalize : Bool) (st : List OrderItem × List InventoryItem)
    (req : OrderReceiveItemRequest) : List OrderItem × List InventoryItem :=
  match st.1.find? (fun i => i.id = req.item_id) with
  | none => st
  | some item =>
    let old_received_quantity : ℚ := item.received_quantity.getD 0
    let was_already_received := item.is_received
    let items := st.1.map (fun i =>
      if i.id = req.item_id then applyReq finalize item req else i)
    let db :=
      if finalize then
        match item.inventory_item_id with
        | none => st.2
        | some iid =>
          st.2.map (fun v =>
            if v.id = iid then
              { v with current_stock := some (v.current_stock.getD 0 +
                  (if was_already_received then
                     req.received_quantity - old_received_quantity
                   else req.received_quantity)) }
            else v)
      else st.2
    (items, db)

/-- `receive_order_items`: wrong-state guard, fail-fast id validation, the
per-item loop, and (when finalizing) the status recomputation. -/
def receive_order_items (order : Order) (db : List InventoryItem)
    (request : OrderReceiveRequest) (now : Nat) :
    Except ApiError (Order × List InventoryItem) :=
  if ¬ (order.status = .ordered ∨ order.status = .partially_received ∨
        order.status = .received) then
    .error .wrongState
  else
    let order_item_ids := order.items.map (fun i => i.id)
    let invalid_item_ids :=
      request.items.filter (fun r => ¬ order_item_ids.contains r.item_id)
    if invalid_item_ids ≠ [] then .error .invalidItems
    else
      let st := request.items.foldl (receive_item_step request.finalize) (order.items, db)
      let order := { order with items := st.1 }
      let order :=
        if request.finalize then
          if st.1.all (fun i => i.is_received) then
            { order with status := .received, received_at := some now }
          else
            { order with status := .partially_received }
        else order
      .ok (order, st.2)

/-! ## The exposed operations as one dispatcher, and the §4.1 table -/

/-- One exposed mutating operation on an existing order (delete-order removes
the row and is not a status assignment). -/
inductive Op where
  | submit (notes : Option String)
  | withdraw
  | review (request : OrderReviewRequest) (reviewer : Nat)
  | resubmit (notes : Option String)
  | mark_ordered
  | unmark_ordered
  | receive (request : OrderReceiveRequest)
  | update_item (item_id : Nat) (item_data : OrderItemUpdate)
  | update_draft_item (item_id : Nat) (quantity : ℚ) (unit : Option String)
  | delete_item (item_id : Nat)
  | add_item (item_data : OrderItemCreate) (item_id : Nat)
  | add_review_it (item_data : OrderItemCreate) (item_id : Nat)
  | add_receiving_it (item_data : OrderItemCreate) (item_id : Nat)
deriving DecidableEq, Repr

/-- Dispatch an operation to its endpoint function, threading the inventory
table through the operations that touch it. -/
def applyOp (op : Op) (order : Order) (db : List InventoryItem) (now : Nat) :
    Except ApiError (Order × List InventoryItem) :=
  match op with
  | .submit notes => (submit_order order notes now).map (fun o => (o, db))
  | .withdraw => (withdraw_order order).map (fun o => (o, db))
  | .review request reviewer => (review_order order request reviewer now).map (fun o => (o, db))
  | .resubmit notes => (resubmit_order order notes now).map (fun o => (o, db))
  | .mark_ordered => (mark_order_ordered order now).map (fun o => (o, db))
  | .unmark_ordered => (unmark_order_ordered order).map (fun o => (o, db))
  | .receive request => receive_order_items order db request now
  | .update_item item_id item_data => (update_order_item order item_id item_data).map (fun o => (o, db))
  | .update_draft_item item_id quantity unit =>
    (update_draft_order_item order item_id quantity unit).map (fun o => (o, db))
  | .delete_item item_id => (delete_order_item order item_id).map (fun o => (o, db))
  | .add_item item_data item_id => (add_order_item order item_data item_id).map (fun o => (o, db))
  | .add_review_it item_data item_id =>
    (add_review_item order item_data db item_id).map (fun o => (o, db))
  | .add_receiving_it item_data item_id => add_receiving_item order item_data db item_id

/-- The transition table of §4.1 of the spec, as the set of (from, to) edges
with `from ≠ to` (staying put is covered separately by the claim's "or is
unchanged"). -/
def specEdge (a b : OrderStatus) : Bool :=
  [ (OrderStatus.draft, OrderStatus.submitted)
  , (OrderStatus.changes_requested, OrderStatus.submitted)
  , (OrderStatus.submitted, OrderStatus.under_review)
  , (OrderStatus.submitted, OrderStatus.approved)
  , (OrderStatus.under_review, OrderStatus.approved)
  , (OrderStatus.submitted, OrderStatus.changes_requested)
  , (OrderStatus.under_review, OrderStatus.changes_requested)
  , (OrderStatus.submitted, OrderStatus.cancelled)
  , (OrderStatus.under_review, OrderStatus.cancelled)
  , (OrderStatus.approved, OrderStatus.ordered)
  , (OrderStatus.ordered, OrderStatus.approved)
  , (OrderStatus.ordered, OrderStatus.partially_received)
  , (OrderStatus.ordered, OrderStatus.received)
  , (OrderStatus.partially_received, OrderStatus.received)
  , (OrderStatus.submitted, OrderStatus.draft)
  , (OrderStatus.under_review, OrderStatus.draft)
  , (OrderStatus.approved, OrderStatus.draft)
  ].contains (a, b)

/-- The states an order can be in: freshly created by `create_order`, or the
result of any successful exposed operation on a reachable state. -/
inductive Reachable : Order → List InventoryItem → Prop where
  | init (property_id : Nat) (items_data : List OrderItemCreate) (notes : Option String)
      (db : List InventoryItem) (order_id base_item_id : Nat) :
      Reachable (create_order property_id items_data notes db order_id base_item_id).1
        (create_order property_id items_data notes db order_id base_item_id).2
  | step {order db} (op : Op) (now : Nat) {order' db'} :
      Reachable order db →
      applyOp op order db now = .ok (order', db') →
      Reachable order' db'

/-- The order produced by a successful `receive_order_items` call: the loop's
item list and, when finalizing, the recomputed status/timestamp.  (Restates
the tail of `receive_order_items` so theorems can name the result.) -/
def recvResultOrder (order : Order) (db : List InventoryItem)
    (request : OrderReceiveRequest) (now : Nat) : Order :=
  let st := request.items.foldl (receive_item_step request.finalize) (order.items, db)
  let order := { order with items := st.1 }
  if request.finalize then
    if st.1.all (fun i => i.is_received) then
      { order with status := .received, received_at := some now }
    else
      { order with status := .partially_received }
  else order

/-! ## Concrete fixtures (used by witnesses and counterexamples) -/

/-- An active recurring catalog row named `"a"`. -/
def invA : InventoryItem :=
  { id := 1, property_id := 1, name := "a", unit := "Each", unit_price := none,
    supplier_id := none, current_stock := some 0, is_recurring := true, is_active := true }

/-- A non-recurring catalog row named `"green onions"`. -/
def invGreenOnions : InventoryItem :=
  { id := 1, property_id := 1, name := "green onions", unit := "Each", unit_price := none,
    supplier_id := none, current_stock := some 0, is_recurring := false, is_active := true }

/-- An ad-hoc order line: no catalog link, free-text name `"Green, Onions"`. -/
def adHocGreenOnions : OrderItemCreate :=
  { inventory_item_id := none, custom_item_name := some "Green, Onions",
    custom_item_description := none, supplier_id := none, flag := none,
    requested_quantity := 2, unit := none, unit_price := none, camp_notes := none }

/-- An ad-hoc order line whose name differs from `"green onions"` only by case
and padding. -/
def adHocCaseVariant : OrderItemCreate :=
  { inventory_item_id := none, custom_item_name := some " GREEN ONIONS ",
    custom_item_description := none, supplier_id := none, flag := none,
    requested_quantity := 3, unit := none, unit_price := none, camp_notes := none }

/-- An inventory row with 5 units in stock, linked from `recvItem`. -/
def recvInv : InventoryItem :=
  { id := 21, property_id := 1, name := "rice", unit := "bag", unit_price := some 2,
    supplier_id := none, current_stock := some 5, is_recurring := true, is_active := true }

/-- An order line (10 requested/approved) linked to `recvInv`, not yet
received. -/
def recvItem : OrderItem :=
  { id := 11, inventory_item_id := some 21, custom_item_name := none,
    custom_item_description := none, supplier_id := none, flag := "manual",
    requested_quantity := 10, approved_quantity := some 10, received_quantity := none,
    unit := some "bag", unit_price := some 2, camp_notes := none, reviewer_notes := none,
    receiving_notes := none, is_received := false, has_issue := false,
    issue_description := none }

/-- An order in `ordered` status holding `recvItem`. -/
def recvOrder : Order :=
  { id := 5, property_id := 1, status := .ordered, items := [recvItem],
    submitted_at := some 1, reviewed_by := some 2, reviewed_at := some 2,
    review_notes := none, approved_at := some 2, ordered_at := some 3,
    received_at := none, estimated_total := 20, notes := none }

/-- A receiving report of 6 units for `recvItem`, no issue. -/
def recvReq6 : OrderReceiveItemRequest :=
  { item_id := 11, received_quantity := 6, has_issue := false, issue_description := none,
    issue_photo_url := none, receiving_notes := none }

/-- A receiving report referencing an item id that is not on `recvOrder`. -/
def recvReqBad : OrderReceiveItemRequest :=
  { recvReq6 with item_id := 99 }

/-- `recvOrder` after a completed receiving cycle: status `received`, its item
marked received at 6 units. -/
def receivedOrder : Order :=
  { recvOrder with
    status := .received
    items := [{ recvItem with is_received := true, received_quantity := some 6 }]
    received_at := some 4 }

/-- `recvOrder` pushed back by a reviewer: status `changes_requested`, with
reviewer data to clear. -/
def crOrder : Order :=
  { recvOrder with
    status := .changes_requested
    items := [{ recvItem with reviewer_notes := some "too much" }]
    review_notes := some "trim it" }

/-! # Theorems -/

/-! ## C6: the similarity formula -/

theorem calc_similarity_eq_amended (n1 n2 : String) :
    calculate_name_similarity n1 n2 = claimScoreAmended n1 n2 := by
  simp only [calculate_name_similarity, claimScoreAmended]
  by_cases h1 : normalize_item_name n1 = normalize_item_name n2
  · rw [if_pos h1, if_pos h1]
  · rw [if_neg h1, if_neg h1]
    by_cases h2 : get_name_tokens n1 = ∅ ∨ get_name_tokens n2 = ∅
    · rw [if_pos h2, if_pos h2]
    · rw [if_neg h2, if_neg h2]
      have hu : (get_name_tokens n1 ∪ get_name_tokens n2) ≠ ∅ := by
        intro h
        exact h2 (Or.inl (Finset.union_eq_empty.mp h).1)
      simp only [if_pos hu]

/-- C6 counterexample: on `A = "the"`, `B = "a"` the normalized strings differ
and both stop-word-filtered token sets are empty; the code returns `0`, while
the claim's formula (empty ⊆ empty raises the floor to `0.85`) gives `17/20`.
So the claimed equation fails at this input. -/
theorem c6_counterexample :
    calculate_name_similarity "the" "a" = 0 ∧ claimScore "the" "a" = 17/20 ∧
      calculate_name_similarity "the" "a" ≠ claimScore "the" "a" := by
  refine ⟨by with_unfolding_all rfl, by with_unfolding_all rfl, ?_⟩
  intro h
  rw [show calculate_name_similarity "the" "a" = 0 from by with_unfolding_all rfl,
    show claimScore "the" "a" = 17/20 from by with_unfolding_all rfl] at h
  norm_num at h

/-- C6 (amended): for all strings `A`, `B` the similarity score is `1` when
the normalized strings are identical, `0` when they differ and either
stop-word-filtered token set is empty, and otherwise `min(1, J + bonus)` with
the subset floor of `0.85` and the substring bonus of `0.3`; in particular
`score("Onions, green", "Green Onions") = 1` and
`score("SOCK SALMON", "Sockeye Salmon") = 1/3`. -/
theorem c6_similarity_formula :
    (∀ n1 n2, calculate_name_similarity n1 n2 = claimScoreAmended n1 n2) ∧
      calculate_name_similarity "Onions, green" "Green Onions" = 1 ∧
      calculate_name_similarity "SOCK SALMON" "Sockeye Salmon" = 1/3 :=
  ⟨calc_similarity_eq_amended, by with_unfolding_all rfl, by with_unfolding_all rfl⟩

/-! ## C7: matcher acceptance and threshold monotonicity -/

theorem matcherFoldSpec (nm : String) (cands : List InventoryItem) :
    ∀ acc : Option InventoryItem × ℚ, 0 ≤ acc.2 → (acc.1.isSome = true ↔ 0 < acc.2) →
      ((cands.foldl (fun acc inv_item =>
          if acc.2 < calculate_name_similarity nm inv_item.name then
            (some inv_item, calculate_name_similarity nm inv_item.name)
          else acc) acc).2
        = cands.foldl (fun m i => max m (calculate_name_similarity nm i.name)) acc.2)
      ∧ 0 ≤ (cands.foldl (fun acc inv_item =>
          if acc.2 < calculate_name_similarity nm inv_item.name then
            (some inv_item, calculate_name_similarity nm inv_item.name)
          else acc) acc).2
      ∧ ((cands.foldl (fun acc inv_item =>
          if acc.2 < calculate_name_similarity nm inv_item.name then
            (some inv_item, calculate_name_similarity nm inv_item.name)
          else acc) acc).1.isSome = true
        ↔ 0 < (cands.foldl (fun acc inv_item =>
          if acc.2 < calculate_name_similarity nm inv_item.name then
            (some inv_item, calculate_name_similarity nm inv_item.name)
          else acc) acc).2) := by
  induction cands with
  | nil => intro acc h0 hs; exact ⟨rfl, h0, hs⟩
  | cons c t ih =>
    intro acc h0 hs
    simp only [List.foldl_cons]
    by_cases hlt : acc.2 < calculate_name_similarity nm c.name
    · rw [if_pos hlt]
      have hmax : max acc.2 (calculate_name_similarity nm c.name)
          = calculate_name_similarity nm c.name := max_eq_right (le_of_lt hlt)
      have := ih (some c, calculate_name_similarity nm c.name)
        (le_of_lt (lt_of_le_of_lt h0 hlt))
        (by simp only [Option.isSome_some]; exact ⟨fun _ => lt_of_le_of_lt h0 hlt, fun _ => trivial⟩)
      rw [hmax]
      exact this
    · rw [if_neg hlt]
      have hmax : max acc.2 (calculate_name_similarity nm c.name) = acc.2 :=
        max_eq_left (not_lt.mp hlt)
      have := ih acc h0 hs
      rw [hmax]
      exact this

theorem find_matching_accept_iff (nm : String) (pid : Nat)
    (db : List InventoryItem) (t : ℚ) :
    ((find_matching_inventory_item nm pid db t).1.isSome = true)
      ↔ (t ≤ bestCandidateScore nm (matchCandidates pid db)
         ∧ 0 < bestCandidateScore nm (matchCandidates pid db)) := by
  have h := matcherFoldSpec nm (matchCandidates pid db) (none, 0) le_rfl (by simp)
  simp only [matchCandidates] at h
  simp only [find_matching_inventory_item, bestCandidateScore, matchCandidates]
  split_ifs with ht
  · constructor
    · intro hsome
      refine ⟨?_, ?_⟩
      · rw [← h.1]; exact ht
      · rw [← h.1]; exact h.2.2.mp hsome
    · intro ⟨_, hpos⟩
      exact h.2.2.mpr (by rw [h.1]; exact hpos)
  · constructor
    · intro hsome; exact absurd hsome (by simp)
    · intro ⟨hle, _⟩
      exact absurd (by rw [← h.1] at hle; exact hle) ht

/-- C7 counterexample: with candidate set `[invA]` (name `"a"`), item name
`"the"` and threshold `0`, the highest candidate score is `0 ≥ 0`, so the
claim says the match is accepted; the code returns no match (its best-match
slot is only filled on a strictly positive score).  So "accepts exactly when
the highest score ≥ threshold" fails at this input. -/
theorem c7_counterexample :
    ¬ (((find_matching_inventory_item "the" 1 [invA] 0).1.isSome = true)
        ↔ 0 ≤ bestCandidateScore "the" (matchCandidates 1 [invA])) := by
  intro h
  have hacc := h.mpr (by with_unfolding_all decide)
  have hf : (find_matching_inventory_item "the" 1 [invA] 0).1.isSome = false := by
    with_unfolding_all rfl
  rw [hf] at hacc
  exact Bool.false_ne_true hacc

/-- C7 (amended): the matcher accepts exactly when the highest similarity
score over the candidate set (the property's active items) is ≥ the threshold
and strictly positive; consequently raising the threshold never turns a
rejected match into an accepted one. -/
theorem c7_matcher_threshold :
    (∀ (nm : String) (pid : Nat) (db : List InventoryItem) (t : ℚ),
       ((find_matching_inventory_item nm pid db t).1.isSome = true)
        ↔ (t ≤ bestCandidateScore nm (matchCandidates pid db)
           ∧ 0 < bestCandidateScore nm (matchCandidates pid db)))
    ∧ (∀ (nm : String) (pid : Nat) (db : List InventoryItem) (t1 t2 : ℚ), t1 ≤ t2 →
       (find_matching_inventory_item nm pid db t2).1.isSome = true →
       (find_matching_inventory_item nm pid db t1).1.isSome = true) := by
  refine ⟨find_matching_accept_iff, ?_⟩
  intro nm pid db t1 t2 h12 hacc
  have h2 := (find_matching_accept_iff nm pid db t2).mp hacc
  exact (find_matching_accept_iff nm pid db t1).mpr ⟨le_trans h12 h2.1, h2.2⟩

/-- C7 witness: `"Green Onions"` scores `1` against the catalog row
`"green onions"`, is accepted at threshold `3/5`, and by monotonicity also at
`1/2`. -/
theorem c7_witness :
    (find_matching_inventory_item "Green Onions" 1 [invGreenOnions] (1/2)).1.isSome = true :=
  c7_matcher_threshold.2 "Green Onions" 1 [invGreenOnions] (1/2) (3/5)
    (by norm_num) (by with_unfolding_all decide)

/-! ## Receiving loop lemmas -/

theorem find?_id_eq {l : List OrderItem} {q : Nat} {w : OrderItem}
    (h : l.find? (fun i => i.id = q) = some w) : w.id = q := by
  have h2 := List.find?_some h
  exact of_decide_eq_true h2

theorem applyReq_id (fin : Bool) (i : OrderItem) (r : OrderReceiveItemRequest) :
    (applyReq fin i r).id = i.id := by
  simp only [applyReq]; split_ifs <;> rfl

theorem applyReq_inv_id (fin : Bool) (i : OrderItem) (r : OrderReceiveItemRequest) :
    (applyReq fin i r).inventory_item_id = i.inventory_item_id := by
  simp only [applyReq]; split_ifs <;> rfl

theorem applyReq_is_received (fin : Bool) (i : OrderItem) (r : OrderReceiveItemRequest) :
    (applyReq fin i r).is_received = (fin || i.is_received) := by
  cases fin <;> rfl

theorem applyReq_true_idem (i : OrderItem) (r : OrderReceiveItemRequest) :
    applyReq true (applyReq true i r) r = applyReq true i r := rfl

theorem upd_map_ids {l : List OrderItem} {rid : Nat} {v : OrderItem} (hv : v.id = rid) :
    (l.map (fun i => if i.id = rid then v else i)).map (fun i => i.id)
      = l.map (fun i => i.id) := by
  induction l with
  | nil => rfl
  | cons a t ih =>
    simp only [List.map_cons, ih]
    by_cases h : a.id = rid
    · rw [if_pos h, hv, h]
    · rw [if_neg h]

theorem find?_upd_ne {l : List OrderItem} {rid q : Nat} {v : OrderItem}
    (hv : v.id = rid) (hne : q ≠ rid) :
    (l.map (fun i => if i.id = rid then v else i)).find? (fun i => i.id = q)
      = l.find? (fun i => i.id = q) := by
  induction l with
  | nil => rfl
  | cons a t ih =>
    simp only [List.map_cons]
    by_cases h : a.id = rid
    · rw [if_pos h]
      rw [List.find?_cons_of_neg _ (by simp [hv]; exact fun hq => hne hq.symm),
        List.find?_cons_of_neg _ (by simp [h]; exact fun hq => hne hq.symm)]
      exact ih
    · rw [if_neg h]
      by_cases hq : a.id = q
      · rw [List.find?_cons_of_pos _ (by simp [hq]), List.find?_cons_of_pos _ (by simp [hq])]
      · rw [List.find?_cons_of_neg _ (by simp [hq]), List.find?_cons_of_neg _ (by simp [hq])]
        exact ih

theorem find?_upd_eq {l : List OrderItem} {rid : Nat} {v w : OrderItem}
    (hv : v.id = rid) (hf : l.find? (fun i => i.id = rid) = some w) :
    (l.map (fun i => if i.id = rid then v else i)).find? (fun i => i.id = rid)
      = some v := by
  induction l with
  | nil => simp at hf
  | cons a t ih =>
    simp only [List.map_cons]
    by_cases h : a.id = rid
    · rw [if_pos h]
      exact List.find?_cons_of_pos _ (by simp [hv])
    · rw [if_neg h]
      rw [List.find?_cons_of_neg _ (by simp [h])]
      rw [List.find?_cons_of_neg _ (by simp [h])] at hf
      exact ih hf

theorem map_upd_self {l : List OrderItem} {rid : Nat} {w : OrderItem}
    (hnd : (l.map (fun i => i.id)).Nodup)
    (hf : l.find? (fun i => i.id = rid) = some w) :
    l.map (fun i => if i.id = rid then w else i) = l := by
  induction l with
  | nil => rfl
  | cons a t ih =>
    simp only [List.map_cons, List.nodup_cons] at hnd ⊢
    by_cases h : a.id = rid
    · rw [List.find?_cons_of_pos _ (by simp [h])] at hf
      injection hf with hw
      rw [if_pos h, hw]
      congr 1
      have : ∀ i ∈ t, (if i.id = rid then w else i) = i := by
        intro i hi
        rw [if_neg]
        intro hirid
        exact hnd.1 (List.mem_map.mpr ⟨i, hi, by rw [hirid, h]⟩)
      rw [List.map_congr_left this, List.map_id']
    · rw [List.find?_cons_of_neg _ (by simp [h])] at hf
      rw [if_neg h]
      congr 1
      exact ih hnd.2 hf

theorem recvFold_ids (fin : Bool) :
    ∀ (reqs : List OrderReceiveItemRequest) (st : List OrderItem × List InventoryItem),
      ((reqs.foldl (receive_item_step fin) st).1.map (fun i => i.id))
        = st.1.map (fun i => i.id) := by
  intro reqs
  induction reqs with
  | nil => intro st; rfl
  | cons r t ih =>
    intro st
    rw [List.foldl_cons, ih]
    unfold receive_item_step
    cases hf : st.1.find? (fun i => i.id = r.item_id) with
    | none => rfl
    | some item =>
      dsimp only
      apply upd_map_ids
      rw [applyReq_id]
      exact find?_id_eq hf

theorem recvFold_db_nofinalize :
    ∀ (reqs : List OrderReceiveItemRequest) (st : List OrderItem × List InventoryItem),
      (reqs.foldl (receive_item_step false) st).2 = st.2 := by
  intro reqs
  induction reqs with
  | nil => intro st; rfl
  | cons r t ih =>
    intro st
    rw [List.foldl_cons, ih]
    unfold receive_item_step
    cases hf : st.1.find? (fun i => i.id = r.item_id) with
    | none => rfl
    | some item => rfl

theorem recvFold_find?_untargeted (fin : Bool) :
    ∀ (reqs : List OrderReceiveItemRequest) (st : List OrderItem × List InventoryItem)
      (q : Nat), (∀ r ∈ reqs, r.item_id ≠ q) →
      ((reqs.foldl (receive_item_step fin) st).1.find? (fun i => i.id = q))
        = st.1.find? (fun i => i.id = q) := by
  intro reqs
  induction reqs with
  | nil => intro st q _; rfl
  | cons r t ih =>
    intro st q hq
    rw [List.foldl_cons, ih _ _ (fun x hx => hq x (List.mem_cons_of_mem _ hx))]
    unfold receive_item_step
    cases hf : st.1.find? (fun i => i.id = r.item_id) with
    | none => rfl
    | some item =>
      dsimp only
      apply find?_upd_ne
      · rw [applyReq_id]
        exact find?_id_eq hf
      · exact fun h => hq r (List.mem_cons_self r t) h.symm

theorem recvFold_find?_targeted (fin : Bool) :
    ∀ (reqs : List OrderReceiveItemRequest) (st : List OrderItem × List InventoryItem)
      (r : OrderReceiveItemRequest),
      ((reqs.map (fun x => x.item_id)).Nodup) → r ∈ reqs →
      ∀ w, st.1.find? (fun i => i.id = r.item_id) = some w →
      ((reqs.foldl (receive_item_step fin) st).1.find? (fun i => i.id = r.item_id))
        = some (applyReq fin w r) := by
  intro reqs
  induction reqs with
  | nil => intro st r _ hr; exact absurd hr (List.not_mem_nil r)
  | cons r0 t ih =>
    intro st r hnd hr w hw
    simp only [List.map_cons, List.nodup_cons] at hnd
    rw [List.foldl_cons]
    rcases List.mem_cons.mp hr with rfl | hrt
    · -- r is the head: the step rewrites it, the tail leaves it alone
      have hstep : ((receive_item_step fin st r).1.find? (fun i => i.id = r.item_id))
          = some (applyReq fin w r) := by
        unfold receive_item_step
        rw [hw]
        dsimp only
        exact find?_upd_eq
          (by rw [applyReq_id]; exact find?_id_eq hw) hw
      rw [recvFold_find?_untargeted fin t _ _ ?hne, hstep]
      case hne =>
        intro x hx h
        exact hnd.1 (by rw [← h]; exact List.mem_map.mpr ⟨x, hx, rfl⟩)
    · -- r is in the tail: the head step does not touch r.item_id
      have hrid : r.item_id ≠ r0.item_id := by
        intro h
        exact hnd.1 (by rw [← h]; exact List.mem_map.mpr ⟨r, hrt, rfl⟩)
      have hstep : ((receive_item_step fin st r0).1.find? (fun i => i.id = r.item_id))
          = some w := by
        unfold receive_item_step
        cases hf : st.1.find? (fun i => i.id = r0.item_id) with
        | none => exact hw
        | some item =>
          dsimp only
          rw [find?_upd_ne (by rw [applyReq_id]; exact find?_id_eq hf)
            hrid]
          exact hw
      exact ih _ r hnd.2 hrt w hstep

theorem recvFold_db_stock_pres (fin : Bool) (q : Nat) :
    ∀ (reqs : List OrderReceiveItemRequest) (st : List OrderItem × List InventoryItem),
      (∀ v ∈ st.2, v.id = q → v.current_stock.isSome = true) →
      (∀ v ∈ (reqs.foldl (receive_item_step fin) st).2, v.id = q →
        v.current_stock.isSome = true) := by
  intro reqs
  induction reqs with
  | nil => intro st h; exact h
  | cons r t ih =>
    intro st h
    rw [List.foldl_cons]
    apply ih
    unfold receive_item_step
    cases hf : st.1.find? (fun i => i.id = r.item_id) with
    | none => exact h
    | some item =>
      dsimp only
      cases fin with
      | false => exact h
      | true =>
        cases hinv : item.inventory_item_id with
        | none => exact h
        | some iid =>
          intro v hv hvq
          rcases List.mem_map.mp hv with ⟨u, hu, rfl⟩
          by_cases hui : u.id = iid
          · rw [if_pos hui]; rfl
          · rw [if_neg hui]
            exact h u hu (by rw [if_neg hui] at hvq; exact hvq)

theorem recvFold_db_stock_some :
    ∀ (reqs : List OrderReceiveItemRequest) (st : List OrderItem × List InventoryItem)
      (r : OrderReceiveItemRequest),
      ((reqs.map (fun x => x.item_id)).Nodup) → r ∈ reqs →
      ∀ w, st.1.find? (fun i => i.id = r.item_id) = some w →
      ∀ iid, w.inventory_item_id = some iid →
      (∀ v ∈ (reqs.foldl (receive_item_step true) st).2, v.id = iid →
        v.current_stock.isSome = true) := by
  intro reqs
  induction reqs with
  | nil => intro st r _ hr; exact absurd hr (List.not_mem_nil r)
  | cons r0 t ih =>
    intro st r hnd hr w hw iid hiid
    simp only [List.map_cons, List.nodup_cons] at hnd
    rw [List.foldl_cons]
    rcases List.mem_cons.mp hr with rfl | hrt
    · -- the head step sets the linked row's stock to `some _`
      apply recvFold_db_stock_pres
      unfold receive_item_step
      rw [hw]
      dsimp only
      rw [hiid]
      intro v hv hvq
      rcases List.mem_map.mp hv with ⟨u, hu, rfl⟩
      by_cases hui : u.id = iid
      · rw [if_pos hui]; rfl
      · rw [if_neg hui]
        exact absurd (by rw [if_neg hui] at hvq; exact hvq) hui
    · have hrid : r.item_id ≠ r0.item_id := by
        intro h
        exact hnd.1 (by rw [← h]; exact List.mem_map.mpr ⟨r, hrt, rfl⟩)
      have hstep : ((receive_item_step true st r0).1.find? (fun i => i.id = r.item_id))
          = some w := by
        unfold receive_item_step
        cases hf : st.1.find? (fun i => i.id = r0.item_id) with
        | none => exact hw
        | some item =>
          dsimp only
          rw [find?_upd_ne (by rw [applyReq_id]; exact find?_id_eq hf)
            hrid]
          exact hw
      exact ih _ r hnd.2 hrt w hstep iid hiid

theorem recvFold_fixed_point :
    ∀ (reqs : List OrderReceiveItemRequest) (items : List OrderItem)
      (db : List InventoryItem),
      ((items.map (fun i => i.id)).Nodup) →
      (∀ r ∈ reqs, ∃ w, items.find? (fun i => i.id = r.item_id) = some w ∧
        applyReq true w r = w ∧
        (∀ iid, w.inventory_item_id = some iid →
          ∀ v ∈ db, v.id = iid → v.current_stock.isSome = true)) →
      reqs.foldl (receive_item_step true) (items, db) = (items, db) := by
  intro reqs
  induction reqs with
  | nil => intro items db _ _; rfl
  | cons r0 t ih =>
    intro items db hnd hfix
    obtain ⟨w, hfind, hfixw, hstock⟩ := hfix r0 (List.mem_cons_self r0 t)
    have hrec : w.is_received = true := by
      rw [← hfixw]; rfl
    have hq : w.received_quantity = some r0.received_quantity := by
      rw [← hfixw]; rfl
    have hstep : receive_item_step true (items, db) r0 = (items, db) := by
      unfold receive_item_step
      rw [hfind]
      dsimp only
      have hitems : items.map (fun i =>
          if i.id = r0.item_id then applyReq true w r0 else i) = items := by
        simp only [hfixw]
        exact map_upd_self hnd hfind
      rw [hitems]
      cases hinv : w.inventory_item_id with
      | none => rfl
      | some iid =>
        dsimp only
        have hdb : db.map (fun v =>
            if v.id = iid then
              { v with current_stock := some (v.current_stock.getD 0 +
                  (if w.is_received then
                     r0.received_quantity - w.received_quantity.getD 0
                   else r0.received_quantity)) }
            else v) = db := by
          have : ∀ v ∈ db, (if v.id = iid then
              { v with current_stock := some (v.current_stock.getD 0 +
                  (if w.is_received then
                     r0.received_quantity - w.received_quantity.getD 0
                   else r0.received_quantity)) }
            else v) = v := by
            intro v hv
            by_cases hvi : v.id = iid
            · rw [if_pos hvi]
              obtain ⟨x, hx⟩ := Option.isSome_iff_exists.mp (hstock iid hinv v hv hvi)
              have hd : (if w.is_received = true then
                  r0.received_quantity - w.received_quantity.getD 0
                else r0.received_quantity) = 0 := by
                rw [hrec, hq]; simp
              rw [hd, add_zero, hx, Option.getD_some, ← hx]
            · rw [if_neg hvi]
          rw [List.map_congr_left this, List.map_id']
        rw [hdb]
        rfl
    rw [List.foldl_cons, hstep]
    exact ih items db hnd (fun r hr => hfix r (List.mem_cons_of_mem _ hr))

theorem recvFold_all_received (fin : Bool) :
    ∀ (reqs : List OrderReceiveItemRequest) (st : List OrderItem × List InventoryItem),
      (st.1.all (fun i => i.is_received) = true) →
      ((reqs.foldl (receive_item_step fin) st).1.all (fun i => i.is_received) = true) := by
  intro reqs
  induction reqs with
  | nil => intro st h; exact h
  | cons r t ih =>
    intro st h
    rw [List.foldl_cons]
    apply ih
    unfold receive_item_step
    cases hf : st.1.find? (fun i => i.id = r.item_id) with
    | none => exact h
    | some item =>
      dsimp only
      rw [List.all_eq_true] at h ⊢
      intro x hx
      rcases List.mem_map.mp hx with ⟨u, hu, rfl⟩
      by_cases hui : u.id = r.item_id
      · rw [if_pos hui, applyReq_is_received]
        cases fin with
        | true => rfl
        | false =>
          simp only [Bool.false_or]
          exact h item (List.mem_of_find?_eq_some hf)
      · rw [if_neg hui]
        exact h u hu

theorem contains_of_mem {l : List Nat} {a : Nat} (h : a ∈ l) : l.contains a = true :=
  List.elem_iff.mpr h

theorem find?_isSome_of_mem_ids {l : List OrderItem} {q : Nat}
    (h : q ∈ l.map (fun i => i.id)) : ∃ w, l.find? (fun i => i.id = q) = some w := by
  rcases List.mem_map.mp h with ⟨i, hi, rfl⟩
  exact Option.isSome_iff_exists.mp (List.find?_isSome.mpr ⟨i, hi, by simp⟩)

theorem receive_ok_form (order : Order) (db : List InventoryItem)
    (request : OrderReceiveRequest) (now : Nat)
    (hstatus : order.status = .ordered ∨ order.status = .partially_received ∨
      order.status = .received)
    (hvalid : ∀ r ∈ request.items, r.item_id ∈ order.items.map (fun i => i.id)) :
    receive_order_items order db request now =
      .ok (recvResultOrder order db request now,
        (request.items.foldl (receive_item_step request.finalize) (order.items, db)).2) := by
  unfold receive_order_items recvResultOrder
  rw [if_neg (not_not_intro hstatus)]
  have hnil : request.items.filter
      (fun r => ¬ (order.items.map (fun i => i.id)).contains r.item_id) = [] := by
    rw [List.filter_eq_nil_iff]
    intro r hr
    simp only [decide_eq_true_eq, not_not]
    exact contains_of_mem (hvalid r hr)
  dsimp only
  rw [hnil]
  rfl

theorem find?_db_upd {db : List InventoryItem} {iid : Nat} {v : InventoryItem}
    (f : InventoryItem → InventoryItem)
    (hid : ∀ u, (f u).id = u.id)
    (hf : db.find? (fun u => u.id = iid) = some v) :
    (db.map (fun u => if u.id = iid then f u else u)).find? (fun u => u.id = iid)
      = some (f v) := by
  induction db with
  | nil => simp at hf
  | cons a t ih =>
    by_cases h : a.id = iid
    · simp only [List.map_cons, if_pos h]
      rw [List.find?_cons_of_pos _ (by simp [hid, h])]
      rw [List.find?_cons_of_pos _ (by simp [h])] at hf
      injection hf with hv
      rw [hv]
    · simp only [List.map_cons, if_neg h]
      rw [List.find?_cons_of_neg _ (by simp [h])]
      rw [List.find?_cons_of_neg _ (by simp [h])] at hf
      exact ih hf

/-! ## C1: delta-based stock update and idempotent re-finalize -/

/-- C1: (i) a single-item finalizing receive changes the linked inventory
row's stock by exactly `new - old`, where `old` is `0` when the item was not
yet marked received and its stored `received_quantity` otherwise; (ii) running
the same finalizing request twice leaves the inventory after the second call
exactly as after the first (net stock delta `0`). -/
theorem c1_receive_delta_idempotent :
    (∀ (order : Order) (db : List InventoryItem) (req : OrderReceiveItemRequest)
       (now : Nat) (item : OrderItem) (iid : Nat) (v : InventoryItem),
       (order.status = .ordered ∨ order.status = .partially_received ∨
        order.status = .received) →
       order.items.find? (fun i => i.id = req.item_id) = some item →
       item.inventory_item_id = some iid →
       db.find? (fun u => u.id = iid) = some v →
       ∃ p, receive_order_items order db ⟨[req], true⟩ now = .ok p ∧
         p.2.find? (fun u => u.id = iid) = some { v with
           current_stock := some (v.current_stock.getD 0 + (req.received_quantity -
             (if item.is_received = true then item.received_quantity.getD 0 else 0))) })
    ∧ (∀ (order : Order) (db : List InventoryItem) (request : OrderReceiveRequest)
       (now1 now2 : Nat),
       request.finalize = true →
       (order.status = .ordered ∨ order.status = .partially_received ∨
        order.status = .received) →
       (∀ r ∈ request.items, r.item_id ∈ order.items.map (fun i => i.id)) →
       ((request.items.map (fun r => r.item_id)).Nodup) →
       ((order.items.map (fun i => i.id)).Nodup) →
       ∃ o1 db1, receive_order_items order db request now1 = .ok (o1, db1) ∧
         ∃ o2, receive_order_items o1 db1 request now2 = .ok (o2, db1)) := by
  constructor
  · intro order db req now item iid v hstatus hfind hinv hdbf
    have hvalid : ∀ r ∈ (⟨[req], true⟩ : OrderReceiveRequest).items,
        r.item_id ∈ order.items.map (fun i => i.id) := by
      intro r hr
      rcases List.mem_singleton.mp hr with rfl
      exact List.mem_map.mpr ⟨item, List.mem_of_find?_eq_some hfind, find?_id_eq hfind⟩
    refine ⟨_, receive_ok_form order db ⟨[req], true⟩ now hstatus hvalid, ?_⟩
    show ((([req] : List OrderReceiveItemRequest).foldl (receive_item_step true)
      (order.items, db)).2.find? (fun u => u.id = iid)) = _
    rw [List.foldl_cons, List.foldl_nil]
    unfold receive_item_step
    rw [hfind]
    dsimp only
    rw [hinv]
    dsimp only
    rw [if_pos rfl]
    have hform := find?_db_upd
      (fun u => { u with current_stock := some (u.current_stock.getD 0 +
        (if item.is_received = true then
           req.received_quantity - item.received_quantity.getD 0
         else req.received_quantity)) })
      (fun u => rfl) hdbf
    beta_reduce at hform
    rw [hform]
    have harith : (if item.is_received = true then
        req.received_quantity - item.received_quantity.getD 0
      else req.received_quantity)
        = req.received_quantity -
          (if item.is_received = true then item.received_quantity.getD 0 else 0) := by
      cases h : item.is_received with
      | true => rfl
      | false => rw [if_neg (by simp), if_neg (by simp), sub_zero]
    rw [harith]
  · intro order db request now1 now2 hfin hstatus hvalid hndreq hnditems
    have hform1 := receive_ok_form order db request now1 hstatus hvalid
    rw [hfin] at hform1
    set o1 := recvResultOrder order db request now1 with ho1
    set db1 := (request.items.foldl (receive_item_step true) (order.items, db)).2 with hdb1
    have ho1items : o1.items
        = (request.items.foldl (receive_item_step true) (order.items, db)).1 := by
      rw [ho1]
      unfold recvResultOrder
      rw [hfin]
      dsimp only
      split_ifs <;> rfl
    have ho1status : o1.status = .received ∨ o1.status = .partially_received := by
      rw [ho1]
      unfold recvResultOrder
      rw [hfin]
      dsimp only
      split_ifs with h1 h2
      · exact Or.inl rfl
      · exact Or.inr rfl
      · exact absurd rfl h1
    have hids1 : o1.items.map (fun i => i.id) = order.items.map (fun i => i.id) := by
      rw [ho1items, recvFold_ids]
    have hvalid1 : ∀ r ∈ request.items, r.item_id ∈ o1.items.map (fun i => i.id) := by
      intro r hr
      rw [hids1]
      exact hvalid r hr
    have hnd1 : (o1.items.map (fun i => i.id)).Nodup := by
      rw [hids1]; exact hnditems
    have hfold2 : request.items.foldl (receive_item_step true) (o1.items, db1)
        = (o1.items, db1) := by
      apply recvFold_fixed_point request.items o1.items db1 hnd1
      intro r hr
      obtain ⟨w, hw⟩ := find?_isSome_of_mem_ids (hvalid r hr)
      refine ⟨applyReq true w r, ?_, applyReq_true_idem w r, ?_⟩
      · rw [ho1items]
        exact recvFold_find?_targeted true request.items (order.items, db) r hndreq hr w hw
      · intro iid hiid
        rw [applyReq_inv_id] at hiid
        exact recvFold_db_stock_some request.items (order.items, db) r hndreq hr w hw iid hiid
    have hstatus1 : o1.status = .ordered ∨ o1.status = .partially_received ∨
        o1.status = .received := by
      rcases ho1status with h | h
      · exact Or.inr (Or.inr h)
      · exact Or.inr (Or.inl h)
    have hform2 := receive_ok_form o1 db1 request now2 hstatus1 hvalid1
    rw [hfin, hfold2] at hform2
    exact ⟨o1, db1, hform1, recvResultOrder o1 db1 request now2, hform2⟩

/-- C1 witness: receiving 6 units into `recvInv` (stock 5) adds `6 - 0`, and
repeating the same finalizing call leaves the inventory unchanged. -/
theorem c1_witness :
    (∃ p, receive_order_items recvOrder [recvInv] ⟨[recvReq6], true⟩ 7 = .ok p ∧
       p.2.find? (fun u => u.id = 21) = some { recvInv with
         current_stock := some (recvInv.current_stock.getD 0 + (recvReq6.received_quantity -
           (if recvItem.is_received = true then recvItem.received_quantity.getD 0 else 0))) })
    ∧ (∃ o1 db1, receive_order_items recvOrder [recvInv] ⟨[recvReq6], true⟩ 8
         = .ok (o1, db1) ∧
       ∃ o2, receive_order_items o1 db1 ⟨[recvReq6], true⟩ 9 = .ok (o2, db1)) := by
  constructor
  · exact c1_receive_delta_idempotent.1 recvOrder [recvInv] recvReq6 7 recvItem 21 recvInv
      (Or.inl rfl) rfl rfl rfl
  · exact c1_receive_delta_idempotent.2 recvOrder [recvInv] ⟨[recvReq6], true⟩ 8 9
      rfl (Or.inl rfl) (by decide) (by decide) (by decide)

/-! ## C2: invalid item ids reject the whole call -/

/-- C2: when some requested item id does not belong to the order, the whole
receive call returns an error (and the transaction therefore writes
nothing). -/
theorem c2_receive_invalid_rejected (order : Order) (db : List InventoryItem)
    (request : OrderReceiveRequest) (now : Nat)
    (h : ∃ r ∈ request.items, r.item_id ∉ order.items.map (fun i => i.id)) :
    ∃ e, receive_order_items order db request now = .error e := by
  unfold receive_order_items
  by_cases hs : order.status = .ordered ∨ order.status = .partially_received ∨
      order.status = .received
  · rw [if_neg (not_not_intro hs)]
    obtain ⟨r, hr, hbad⟩ := h
    have hne : request.items.filter
        (fun x => ¬ (order.items.map (fun i => i.id)).contains x.item_id) ≠ [] := by
      apply List.ne_nil_of_mem (a := r)
      rw [List.mem_filter]
      refine ⟨hr, ?_⟩
      simp only [decide_eq_true_eq]
      intro hc
      exact hbad (List.elem_iff.mp hc)
    rw [if_pos hne]
    exact ⟨_, rfl⟩
  · rw [if_pos hs]
    exact ⟨_, rfl⟩

/-- C2 witness: a request naming item 99, which is not on `recvOrder`, is
rejected. -/
theorem c2_witness :
    ∃ e, receive_order_items recvOrder [recvInv] ⟨[recvReqBad], false⟩ 7 = .error e :=
  c2_receive_invalid_rejected recvOrder [recvInv] ⟨[recvReqBad], false⟩ 7
    ⟨recvReqBad, List.mem_singleton.mpr rfl, by decide⟩

/-! ## C4: finalize recomputes the order status -/

/-- C4: a successful finalizing receive ends with status `received` exactly
when every item of the order is marked received (and then stamps
`received_at`); otherwise the status is `partially_received`. -/
theorem c4_receive_finalize_status (order : Order) (db : List InventoryItem)
    (request : OrderReceiveRequest) (now : Nat) (o' : Order) (db' : List InventoryItem)
    (hfin : request.finalize = true)
    (hok : receive_order_items order db request now = .ok (o', db')) :
    (o'.status = .received ↔ o'.items.all (fun i => i.is_received) = true)
    ∧ (o'.status = .received → o'.received_at = some now)
    ∧ (o'.status = .received ∨ o'.status = .partially_received) := by
  unfold receive_order_items at hok
  by_cases hs : order.status = .ordered ∨ order.status = .partially_received ∨
      order.status = .received
  · rw [if_neg (not_not_intro hs)] at hok
    by_cases hc : request.items.filter
        (fun x => ¬ (order.items.map (fun i => i.id)).contains x.item_id) ≠ []
    · rw [if_pos hc] at hok
      exact absurd hok (by simp)
    · rw [if_neg hc] at hok
      rw [hfin] at hok
      dsimp only at hok
      by_cases hall : ((request.items.foldl (receive_item_step true)
          (order.items, db)).1.all (fun i => i.is_received)) = true
      · rw [if_pos rfl, if_pos hall] at hok
        simp only [Except.ok.injEq, Prod.mk.injEq] at hok
        obtain ⟨ho, _⟩ := hok
        subst ho
        exact ⟨iff_of_true rfl hall, fun _ => rfl, Or.inl rfl⟩
      · rw [if_pos rfl, if_neg hall] at hok
        simp only [Except.ok.injEq, Prod.mk.injEq] at hok
        obtain ⟨ho, _⟩ := hok
        subst ho
        have hne : ¬ (OrderStatus.partially_received = OrderStatus.received) := by decide
        exact ⟨iff_of_false hne hall, fun hcon => absurd hcon hne, Or.inr rfl⟩
  · rw [if_pos hs] at hok
    exact absurd hok (by simp)

/-- C4 witness: finalizing the only item of `recvOrder` yields a `received`
order with every item received. -/
theorem c4_witness :
    ∃ p, receive_order_items recvOrder [recvInv] ⟨[recvReq6], true⟩ 7 = .ok p ∧
      (p.1.status = .received ↔ p.1.items.all (fun i => i.is_received) = true) := by
  obtain ⟨p, hp⟩ : ∃ p, receive_order_items recvOrder [recvInv] ⟨[recvReq6], true⟩ 7
      = .ok p := ⟨_, by with_unfolding_all rfl⟩
  refine ⟨p, hp, ?_⟩
  exact (c4_receive_finalize_status recvOrder [recvInv] ⟨[recvReq6], true⟩ 7 p.1 p.2
    rfl (by rw [hp])).1

/-! ## C5: non-finalizing receive, and the unpersisted issue photo URL -/

theorem receive_item_step_congr (fin : Bool) (st : List OrderItem × List InventoryItem)
    {r1 r2 : OrderReceiveItemRequest} (h : eraseIssuePhoto r1 = eraseIssuePhoto r2) :
    receive_item_step fin st r1 = receive_item_step fin st r2 := by
  have e1 := congrArg OrderReceiveItemRequest.item_id h
  have e2 := congrArg OrderReceiveItemRequest.received_quantity h
  have e3 := congrArg OrderReceiveItemRequest.has_issue h
  have e4 := congrArg OrderReceiveItemRequest.issue_description h
  have e5 := congrArg OrderReceiveItemRequest.receiving_notes h
  have h1 : r1.item_id = r2.item_id := e1
  have h2 : r1.received_quantity = r2.received_quantity := e2
  have h3 : r1.has_issue = r2.has_issue := e3
  have h4 : r1.issue_description = r2.issue_description := e4
  have h5 : r1.receiving_notes = r2.receiving_notes := e5
  unfold receive_item_step applyReq
  rw [h1, h2, h3, h4, h5]

theorem recvFold_congr (fin : Bool) :
    ∀ (l1 l2 : List OrderReceiveItemRequest),
      l1.map eraseIssuePhoto = l2.map eraseIssuePhoto →
      ∀ st : List OrderItem × List InventoryItem,
        l1.foldl (receive_item_step fin) st = l2.foldl (receive_item_step fin) st := by
  intro l1
  induction l1 with
  | nil =>
    intro l2 h st
    cases l2 with
    | nil => rfl
    | cons r2 t2 => simp at h
  | cons r1 t1 ih =>
    intro l2 h st
    cases l2 with
    | nil => simp at h
    | cons r2 t2 =>
      simp only [List.map_cons, List.cons.injEq] at h
      rw [List.foldl_cons, List.foldl_cons,
        receive_item_step_congr fin st h.1, ih t2 h.2]

theorem receive_order_items_congr (order : Order) (db : List InventoryItem)
    (fin : Bool) (now : Nat) (items1 items2 : List OrderReceiveItemRequest)
    (h : items1.map eraseIssuePhoto = items2.map eraseIssuePhoto) :
    receive_order_items order db ⟨items1, fin⟩ now
      = receive_order_items order db ⟨items2, fin⟩ now := by
  have hids : items1.map (fun r => r.item_id) = items2.map (fun r => r.item_id) := by
    have e1 : items1.map (fun r => r.item_id)
        = (items1.map eraseIssuePhoto).map (fun r => r.item_id) := by
      rw [List.map_map]
      exact rfl
    have e2 : items2.map (fun r => r.item_id)
        = (items2.map eraseIssuePhoto).map (fun r => r.item_id) := by
      rw [List.map_map]
      exact rfl
    rw [e1, e2, h]
  unfold receive_order_items
  by_cases hs : order.status = .ordered ∨ order.status = .partially_received ∨
      order.status = .received
  case neg => rw [if_pos hs, if_pos hs]
  case pos =>
    rw [if_neg (not_not_intro hs), if_neg (not_not_intro hs)]
    dsimp only
    have hemp : (items1.filter
          (fun x => ¬ (order.items.map (fun i => i.id)).contains x.item_id) = [])
        ↔ (items2.filter
          (fun x => ¬ (order.items.map (fun i => i.id)).contains x.item_id) = []) := by
      rw [List.filter_eq_nil_iff, List.filter_eq_nil_iff]
      constructor
      · intro ha r2 hr2
        simp only [decide_eq_true_eq, not_not] at ha ⊢
        have hm : r2.item_id ∈ items1.map (fun r => r.item_id) := by
          rw [hids]
          exact List.mem_map.mpr ⟨r2, hr2, rfl⟩
        rcases List.mem_map.mp hm with ⟨r1, hr1, hid⟩
        rw [← hid]
        exact ha r1 hr1
      · intro ha r1 hr1
        simp only [decide_eq_true_eq, not_not] at ha ⊢
        have hm : r1.item_id ∈ items2.map (fun r => r.item_id) := by
          rw [← hids]
          exact List.mem_map.mpr ⟨r1, hr1, rfl⟩
        rcases List.mem_map.mp hm with ⟨r2, hr2, hid⟩
        rw [← hid]
        exact ha r2 hr2
    by_cases hinv : items1.filter
        (fun x => ¬ (order.items.map (fun i => i.id)).contains x.item_id) = []
    · rw [hinv, hemp.mp hinv]
      have hnn : ¬ (([] : List OrderReceiveItemRequest) ≠ []) := fun hh => hh rfl
      rw [if_neg hnn, if_neg hnn]
      rw [recvFold_congr fin items1 items2 h (order.items, db)]
    · have hinv2 : ¬ items2.filter
          (fun x => ¬ (order.items.map (fun i => i.id)).contains x.item_id) = [] :=
        fun hh => hinv (hemp.mpr hh)
      rw [if_pos hinv, if_pos hinv2]

/-- C5 (code bug): the receiving loop's `issue_photo_url` write
(orders.py:1620) targets an attribute with no backing column, so nothing of
the request's `issue_photo_url` reaches the persisted state: two receive
calls differing only in that field produce identical results.  The four
receiving fields that do exist as columns are recorded by a non-finalizing
call, which returns the inventory table unchanged and keeps every item's
`is_received` flag and the order status. -/
theorem c5_receive_photo_not_persisted :
    (∀ (order : Order) (db : List InventoryItem) (fin : Bool) (now : Nat)
       (items1 items2 : List OrderReceiveItemRequest),
       items1.map eraseIssuePhoto = items2.map eraseIssuePhoto →
       receive_order_items order db ⟨items1, fin⟩ now
         = receive_order_items order db ⟨items2, fin⟩ now)
    ∧ (∀ (order : Order) (db : List InventoryItem) (request : OrderReceiveRequest)
       (now : Nat),
       request.finalize = false →
       (order.status = .ordered ∨ order.status = .partially_received ∨
        order.status = .received) →
       (∀ r ∈ request.items, r.item_id ∈ order.items.map (fun i => i.id)) →
       ((request.items.map (fun r => r.item_id)).Nodup) →
       ∃ o', receive_order_items order db request now = .ok (o', db)
         ∧ o'.status = order.status
         ∧ (∀ r ∈ request.items, ∃ i,
             order.items.find? (fun x => x.id = r.item_id) = some i
             ∧ o'.items.find? (fun x => x.id = r.item_id) = some
                 { i with received_quantity := some r.received_quantity
                          has_issue := r.has_issue
                          issue_description := r.issue_description
                          receiving_notes := r.receiving_notes })
         ∧ (∀ q : Nat, ((o'.items.find? (fun x => x.id = q)).map (fun i => i.is_received))
               = ((order.items.find? (fun x => x.id = q)).map (fun i => i.is_received)))) := by
  refine ⟨receive_order_items_congr, ?_⟩
  intro order db request now hfin hstatus hvalid hndreq
  have hform := receive_ok_form order db request now hstatus hvalid
  rw [hfin] at hform
  set o' := recvResultOrder order db request now with ho'
  have hitems : o'.items
      = (request.items.foldl (receive_item_step false) (order.items, db)).1 := by
    rw [ho']
    unfold recvResultOrder
    rw [hfin]
    rfl
  have hstatus' : o'.status = order.status := by
    rw [ho']
    unfold recvResultOrder
    rw [hfin]
    rfl
  refine ⟨o', ?_, hstatus', ?_, ?_⟩
  · rw [hform, recvFold_db_nofinalize]
  · intro r hr
    obtain ⟨w, hw⟩ := find?_isSome_of_mem_ids (hvalid r hr)
    refine ⟨w, hw, ?_⟩
    have := recvFold_find?_targeted false request.items (order.items, db) r hndreq hr w hw
    rw [hitems, this]
    rfl
  · intro q
    by_cases hq : ∃ r ∈ request.items, r.item_id = q
    · obtain ⟨r, hr, rfl⟩ := hq
      obtain ⟨w, hw⟩ := find?_isSome_of_mem_ids (hvalid r hr)
      have := recvFold_find?_targeted false request.items (order.items, db) r hndreq hr w hw
      rw [hitems, this, hw]
      rfl
    · push_neg at hq
      rw [hitems, recvFold_find?_untargeted false request.items (order.items, db) q hq]

/-- C5 witness, at the failing input: a non-finalizing receive reporting 6
units together with an issue photo URL succeeds, keeps the inventory and the
order status — and returns exactly the state of the same call without the
photo URL, exhibiting that the URL is never persisted. -/
theorem c5_witness :
    receive_order_items recvOrder [recvInv]
        ⟨[{ recvReq6 with issue_photo_url := some "https://example.com/issue.jpg" }],
          false⟩ 7
      = receive_order_items recvOrder [recvInv] ⟨[recvReq6], false⟩ 7
    ∧ ∃ o', receive_order_items recvOrder [recvInv]
        ⟨[{ recvReq6 with issue_photo_url := some "https://example.com/issue.jpg" }],
          false⟩ 7
        = .ok (o', [recvInv]) ∧ o'.status = recvOrder.status := by
  constructor
  · exact c5_receive_photo_not_persisted.1 recvOrder [recvInv] false 7
      [{ recvReq6 with issue_photo_url := some "https://example.com/issue.jpg" }]
      [recvReq6] rfl
  · obtain ⟨o', h1, h2, _, _⟩ := c5_receive_photo_not_persisted.2 recvOrder [recvInv]
      ⟨[{ recvReq6 with issue_photo_url := some "https://example.com/issue.jpg" }],
        false⟩ 7 rfl (Or.inl rfl) (by decide) (by decide)
    exact ⟨o', h1, h2⟩

/-! ## C10: the receiving state guard -/

/-- C10: `receive_order_items` raises the wrong-state error exactly when the
order is in none of `ordered`, `partially_received`, `received`; in
particular a finalizing call on an order already `received` (with valid item
ids) succeeds. -/
theorem c10_receive_state_guard :
    (∀ (order : Order) (db : List InventoryItem) (request : OrderReceiveRequest)
       (now : Nat),
      (receive_order_items order db request now = .error .wrongState
        ↔ ¬ (order.status = .ordered ∨ order.status = .partially_received ∨
             order.status = .received)))
    ∧ (∀ (order : Order) (db : List InventoryItem) (request : OrderReceiveRequest)
       (now : Nat),
        order.status = .received → request.finalize = true →
        (∀ r ∈ request.items, r.item_id ∈ order.items.map (fun i => i.id)) →
        ∃ p, receive_order_items order db request now = .ok p) := by
  constructor
  · intro order db request now
    unfold receive_order_items
    by_cases hs : order.status = .ordered ∨ order.status = .partially_received ∨
        order.status = .received
    · rw [if_neg (not_not_intro hs)]
      by_cases hc : request.items.filter
          (fun x => ¬ (order.items.map (fun i => i.id)).contains x.item_id) ≠ []
      · rw [if_pos hc]
        simp [hs]
      · rw [if_neg hc]
        simp [hs]
    · rw [if_pos hs]
      simp [hs]
  · intro order db request now hrec _ hvalid
    exact ⟨_, receive_ok_form order db request now (Or.inr (Or.inr hrec)) hvalid⟩

/-- C10 witness: a `changes_requested` order is rejected with the wrong-state
error, while a finalizing correction on the already-`received` order
succeeds. -/
theorem c10_witness :
    receive_order_items crOrder [] ⟨[], false⟩ 1 = .error .wrongState ∧
    ∃ p, receive_order_items receivedOrder [recvInv] ⟨[recvReq6], true⟩ 7 = .ok p := by
  constructor
  · exact (c10_receive_state_guard.1 crOrder [] ⟨[], false⟩ 1).mpr (by decide)
  · exact c10_receive_state_guard.2 receivedOrder [recvInv] ⟨[recvReq6], true⟩ 7
      rfl rfl (by decide)

/-! ## C9: resubmit clears approval data -/

/-- C9: resubmitting a `changes_requested`/`draft` order with at least one
item nulls every item's `approved_quantity`/`reviewer_notes`, clears the
order's reviewer fields, and sets status `submitted`; with zero items the
call is a precondition error. -/
theorem c9_resubmit_clears (order : Order) (notes : Option String) (now : Nat)
    (h : order.status = .changes_requested ∨ order.status = .draft) :
    (order.items ≠ [] →
      ∃ o', resubmit_order order notes now = .ok o' ∧ o'.status = .submitted ∧
        (∀ i ∈ o'.items, i.approved_quantity = none ∧ i.reviewer_notes = none) ∧
        o'.reviewed_by = none ∧ o'.reviewed_at = none ∧ o'.review_notes = none)
    ∧ (order.items = [] → resubmit_order order notes now = .error .emptyOrder) := by
  constructor
  · intro hne
    unfold resubmit_order
    rw [if_neg (not_not_intro h),
      if_neg (fun hlen => hne (List.length_eq_zero.mp hlen))]
    refine ⟨_, rfl, rfl, ?_, rfl, rfl, rfl⟩
    intro i hi
    rcases List.mem_map.mp hi with ⟨x, _, rfl⟩
    exact ⟨rfl, rfl⟩
  · intro hnil
    unfold resubmit_order
    rw [if_neg (not_not_intro h), if_pos (by rw [hnil]; rfl)]

/-- C9 witness: resubmitting the concrete `changes_requested` order clears
its item's reviewer data and submits it. -/
theorem c9_witness :
    ∃ o', resubmit_order crOrder none 9 = .ok o' ∧ o'.status = .submitted ∧
      (∀ i ∈ o'.items, i.approved_quantity = none ∧ i.reviewer_notes = none) ∧
      o'.reviewed_by = none ∧ o'.reviewed_at = none ∧ o'.review_notes = none :=
  (c9_resubmit_clears crOrder none 9 (Or.inl rfl)).1 (by with_unfolding_all decide)

/-! ## C8: ad-hoc custom items -/

/-- C8 counterexample: the catalog holds a non-recurring `"green onions"`;
an ad-hoc line named `"Green, Onions"` has the same §4.2-normalized name, so
the claim says order creation links to the existing row.  The code matches
only with a case-insensitive `ILIKE` on the stripped name, which fails here,
so it creates a second inventory row and links the line to the fresh id
instead. -/
theorem c8_counterexample :
    invGreenOnions.is_recurring = false ∧
    normalize_item_name "Green, Onions" = normalize_item_name invGreenOnions.name ∧
    (create_order_item 1 adHocGreenOnions [invGreenOnions] 31).1.inventory_item_id
      = some (freshInvId [invGreenOnions]) ∧
    freshInvId [invGreenOnions] ≠ invGreenOnions.id ∧
    (create_order_item 1 adHocGreenOnions [invGreenOnions] 31).2.length = 2 := by
  exact ⟨rfl, by with_unfolding_all rfl, by with_unfolding_all rfl, by decide,
    by with_unfolding_all rfl⟩

/-- C8 (amended): for an ad-hoc order line (no catalog link, nonempty
free-text name), the per-item step of order creation searches the property's
inventory for a non-recurring item whose name matches the stripped supplied
name case-insensitively (SQL `ILIKE`); it links the line to the first such
item, leaving the inventory unchanged, and otherwise creates exactly one new
non-recurring, active inventory item with the stripped name and zero stock
and links the line to it. -/
theorem c8_ad_hoc_materialization (property_id : Nat) (item_data : OrderItemCreate)
    (db : List InventoryItem) (item_id : Nat)
    (h1 : item_data.inventory_item_id = none)
    (h2 : strTruthy item_data.custom_item_name = true) :
    (∀ e, db.find? (fun i => i.property_id = property_id ∧
        ilike i.name (stripStr (item_data.custom_item_name.getD "")) ∧
        i.is_recurring = false) = some e →
      (create_order_item property_id item_data db item_id).1.inventory_item_id = some e.id
      ∧ (create_order_item property_id item_data db item_id).2 = db)
    ∧ (db.find? (fun i => i.property_id = property_id ∧
        ilike i.name (stripStr (item_data.custom_item_name.getD "")) ∧
        i.is_recurring = false) = none →
      (create_order_item property_id item_data db item_id).2
        = db ++ [{ id := freshInvId db
                   property_id := property_id
                   name := stripStr (item_data.custom_item_name.getD "")
                   unit := if strTruthy item_data.unit then item_data.unit.getD "Each" else "Each"
                   unit_price := none
                   supplier_id := none
                   current_stock := some 0
                   is_recurring := false
                   is_active := true }]
      ∧ (create_order_item property_id item_data db item_id).1.inventory_item_id
          = some (freshInvId db)) := by
  constructor
  · intro e he
    unfold create_order_item find_or_create_nonrecurring
    rw [if_pos ⟨h1, h2⟩, he]
    exact ⟨rfl, rfl⟩
  · intro hn
    unfold create_order_item find_or_create_nonrecurring
    rw [if_pos ⟨h1, h2⟩, hn]
    exact ⟨rfl, rfl⟩

/-- C8 witness: an ad-hoc line named `" GREEN ONIONS "` (case/padding
variant) is linked to the existing non-recurring `"green onions"` row and the
inventory is unchanged. -/
theorem c8_witness :
    (create_order_item 1 adHocCaseVariant [invGreenOnions] 31).1.inventory_item_id
      = some invGreenOnions.id
    ∧ (create_order_item 1 adHocCaseVariant [invGreenOnions] 31).2 = [invGreenOnions] :=
  (c8_ad_hoc_materialization 1 adHocCaseVariant [invGreenOnions] 31 rfl
    (by decide)).1 invGreenOnions (by with_unfolding_all rfl)

/-! ## C3: every operation follows the §4.1 transition table -/

theorem except_map_ok {ε α β : Type} {e : Except ε α} {f : α → β} {y : β}
    (h : Except.map f e = .ok y) : ∃ x, e = .ok x ∧ y = f x := by
  cases e with
  | error a => simp [Except.map] at h
  | ok a =>
    simp only [Except.map, Except.ok.injEq] at h
    exact ⟨a, rfl, h.symm⟩

theorem submit_ok_status {o : Order} {n : Option String} {t : Nat} {o' : Order}
    (h : submit_order o n t = .ok o') :
    o.status = .draft ∧ o'.status = .submitted := by
  unfold submit_order at h
  split_ifs at h with h1 h2 h3 <;>
    simp only [Except.ok.injEq] at h <;> subst h <;> exact ⟨not_not.mp h1, rfl⟩

theorem withdraw_ok_status {o : Order} {o' : Order}
    (h : withdraw_order o = .ok o') :
    (o.status = .submitted ∨ o.status = .under_review ∨ o.status = .approved)
    ∧ o'.status = .draft := by
  unfold withdraw_order at h
  split_ifs at h with h1
  simp only [Except.ok.injEq] at h
  subst h
  exact ⟨h1, rfl⟩

theorem review_ok_status {o : Order} {req : OrderReviewRequest} {rev t : Nat} {o' : Order}
    (h : review_order o req rev t = .ok o') :
    (o.status = .submitted ∨ o.status = .under_review)
    ∧ (o'.status = .approved ∨ o'.status = .changes_requested ∨
       o'.status = .cancelled ∨ o'.status = o.status) := by
  unfold review_order at h
  split_ifs at h with h1 h2 h3 h4 <;>
    simp only [Except.ok.injEq] at h <;> subst h
  · exact ⟨h1, Or.inl rfl⟩
  · exact ⟨h1, Or.inr (Or.inl rfl)⟩
  · exact ⟨h1, Or.inr (Or.inr (Or.inl rfl))⟩
  · exact ⟨h1, Or.inr (Or.inr (Or.inr rfl))⟩

theorem resubmit_ok_status {o : Order} {n : Option String} {t : Nat} {o' : Order}
    (h : resubmit_order o n t = .ok o') :
    (o.status = .changes_requested ∨ o.status = .draft) ∧ o'.status = .submitted := by
  unfold resubmit_order at h
  split_ifs at h with h1 h2 h3 <;>
    simp only [Except.ok.injEq] at h <;> subst h <;> exact ⟨h1, rfl⟩

theorem mark_ordered_ok_status {o : Order} {t : Nat} {o' : Order}
    (h : mark_order_ordered o t = .ok o') :
    o.status = .approved ∧ o'.status = .ordered := by
  unfold mark_order_ordered at h
  split_ifs at h with h1
  simp only [Except.ok.injEq] at h
  subst h
  exact ⟨not_not.mp h1, rfl⟩

theorem unmark_ordered_ok_status {o : Order} {o' : Order}
    (h : unmark_order_ordered o = .ok o') :
    o.status = .ordered ∧ o'.status = .approved := by
  unfold unmark_order_ordered at h
  split_ifs at h with h1
  simp only [Except.ok.injEq] at h
  subst h
  exact ⟨not_not.mp h1, rfl⟩

theorem update_item_ok_status {o : Order} {iid : Nat} {d : OrderItemUpdate} {o' : Order}
    (h : update_order_item o iid d = .ok o') :
    (o.status = .submitted ∨ o.status = .under_review)
    ∧ (o'.status = .under_review ∨ o'.status = o.status) := by
  unfold update_order_item at h
  split_ifs at h with h1 h2
  simp only [Except.ok.injEq] at h
  subst h
  refine ⟨h1, ?_⟩
  split
  · exact Or.inl rfl
  · exact Or.inr rfl

theorem update_draft_item_ok_status {o : Order} {iid : Nat} {q : ℚ}
    {u : Option String} {o' : Order}
    (h : update_draft_order_item o iid q u = .ok o') :
    (o.status = .draft ∨ o.status = .changes_requested) ∧ o'.status = o.status := by
  unfold update_draft_order_item at h
  split_ifs at h with h1 h2 <;>
    simp only [Except.ok.injEq] at h <;> subst h <;> exact ⟨h1, rfl⟩

theorem delete_item_ok_status {o : Order} {iid : Nat} {o' : Order}
    (h : delete_order_item o iid = .ok o') :
    (o.status = .draft ∨ o.status = .changes_requested) ∧ o'.status = o.status := by
  unfold delete_order_item at h
  split_ifs at h with h1 h2 <;>
    simp only [Except.ok.injEq] at h <;> subst h <;> exact ⟨h1, rfl⟩

theorem add_item_ok_status {o : Order} {d : OrderItemCreate} {iid : Nat} {o' : Order}
    (h : add_order_item o d iid = .ok o') :
    o.status = .draft ∧ o'.status = o.status := by
  unfold add_order_item at h
  split_ifs at h with h1 h2 <;>
    simp only [Except.ok.injEq] at h <;> subst h <;> exact ⟨not_not.mp h1, rfl⟩

theorem add_review_item_ok_status {o : Order} {d : OrderItemCreate}
    {db : List InventoryItem} {iid : Nat} {o' : Order}
    (h : add_review_item o d db iid = .ok o') :
    (o.status = .submitted ∨ o.status = .under_review) ∧ o'.status = o.status := by
  unfold add_review_item at h
  split_ifs at h with h1 <;>
    simp only [Except.ok.injEq] at h <;> subst h <;> exact ⟨h1, rfl⟩

theorem add_receiving_item_ok_status {o : Order} {d : OrderItemCreate}
    {db : List InventoryItem} {iid : Nat} {o' : Order} {db' : List InventoryItem}
    (h : add_receiving_item o d db iid = .ok (o', db')) :
    (o.status = .ordered ∨ o.status = .partially_received) ∧ o'.status = o.status := by
  unfold add_receiving_item at h
  split_ifs at h with h1 <;>
    simp only [Except.ok.injEq, Prod.mk.injEq] at h <;>
    exact ⟨h1, by rw [← h.1]⟩

theorem receive_ok_status_cases {o : Order} {db : List InventoryItem}
    {rq : OrderReceiveRequest} {t : Nat} {o' : Order} {db' : List InventoryItem}
    (h : receive_order_items o db rq t = .ok (o', db')) :
    (o.status = .ordered ∨ o.status = .partially_received ∨ o.status = .received)
    ∧ (rq.finalize = false → o'.status = o.status)
    ∧ (rq.finalize = true →
       (o'.status = .received ∧ o'.items.all (fun i => i.is_received) = true)
       ∨ (o'.status = .partially_received ∧
          o'.items.all (fun i => i.is_received) = false))
    ∧ (o.items.all (fun i => i.is_received) = true →
       o'.items.all (fun i => i.is_received) = true) := by
  unfold receive_order_items at h
  by_cases h1 : (o.status = .ordered ∨ o.status = .partially_received ∨
      o.status = .received)
  case neg =>
    rw [if_pos h1] at h
    exact absurd h (by simp)
  rw [if_neg (not_not_intro h1)] at h
  by_cases h2 : (rq.items.filter
      (fun x => ¬ (o.items.map (fun i => i.id)).contains x.item_id)) ≠ []
  case pos =>
    rw [if_pos h2] at h
    exact absurd h (by simp)
  rw [if_neg h2] at h
  dsimp only at h
  refine ⟨h1, ?_, ?_, ?_⟩
  · intro hfin
    rw [hfin] at h
    simp only [Bool.false_eq_true, if_false, Except.ok.injEq, Prod.mk.injEq] at h
    obtain ⟨ho, _⟩ := h
    subst ho
    rfl
  · intro hfin
    rw [hfin] at h
    by_cases hall : ((rq.items.foldl (receive_item_step true) (o.items, db)).1.all
        (fun i => i.is_received)) = true
    · rw [if_pos (rfl : (true : Bool) = true), if_pos hall] at h
      simp only [Except.ok.injEq, Prod.mk.injEq] at h
      obtain ⟨ho, _⟩ := h
      subst ho
      exact Or.inl ⟨rfl, hall⟩
    · rw [if_pos (rfl : (true : Bool) = true), if_neg hall] at h
      simp only [Except.ok.injEq, Prod.mk.injEq] at h
      obtain ⟨ho, _⟩ := h
      subst ho
      exact Or.inr ⟨rfl, Bool.eq_false_iff.mpr hall⟩
  · intro hall
    have hfold := recvFold_all_received rq.finalize rq.items (o.items, db) hall
    split_ifs at h <;>
      simp only [Except.ok.injEq, Prod.mk.injEq] at h <;>
      obtain ⟨ho, _⟩ := h <;> subst ho <;> exact hfold

/-- A reachable order in `received` status has every item marked received. -/
theorem reachable_received_all {o : Order} {db : List InventoryItem}
    (h : Reachable o db) :
    o.status = .received → o.items.all (fun i => i.is_received) = true := by
  induction h with
  | init pid items_data notes db0 oid bid =>
    intro hst
    exact absurd (show OrderStatus.draft = OrderStatus.received from hst) (by decide)
  | step op now hre happ ih =>
    rename_i o1 db1 o2 db2
    intro hst
    cases op with
    | submit notes =>
      obtain ⟨x, hx, hy⟩ := except_map_ok happ
      obtain ⟨_, hpost⟩ := submit_ok_status hx
      simp only [Prod.mk.injEq] at hy
      rw [hy.1] at hst
      rw [hpost] at hst
      exact absurd hst (by decide)
    | withdraw =>
      obtain ⟨x, hx, hy⟩ := except_map_ok happ
      obtain ⟨_, hpost⟩ := withdraw_ok_status hx
      simp only [Prod.mk.injEq] at hy
      rw [hy.1] at hst
      rw [hpost] at hst
      exact absurd hst (by decide)
    | review req rev =>
      obtain ⟨x, hx, hy⟩ := except_map_ok happ
      obtain ⟨hpre, hpost⟩ := review_ok_status hx
      simp only [Prod.mk.injEq] at hy
      rw [hy.1] at hst
      rcases hpost with hp | hp | hp | hp <;> rw [hp] at hst
      · exact absurd hst (by decide)
      · exact absurd hst (by decide)
      · exact absurd hst (by decide)
      · rcases hpre with hq | hq <;> rw [hq] at hst <;> exact absurd hst (by decide)
    | resubmit notes =>
      obtain ⟨x, hx, hy⟩ := except_map_ok happ
      obtain ⟨_, hpost⟩ := resubmit_ok_status hx
      simp only [Prod.mk.injEq] at hy
      rw [hy.1] at hst
      rw [hpost] at hst
      exact absurd hst (by decide)
    | mark_ordered =>
      obtain ⟨x, hx, hy⟩ := except_map_ok happ
      obtain ⟨_, hpost⟩ := mark_ordered_ok_status hx
      simp only [Prod.mk.injEq] at hy
      rw [hy.1] at hst
      rw [hpost] at hst
      exact absurd hst (by decide)
    | unmark_ordered =>
      obtain ⟨x, hx, hy⟩ := except_map_ok happ
      obtain ⟨_, hpost⟩ := unmark_ordered_ok_status hx
      simp only [Prod.mk.injEq] at hy
      rw [hy.1] at hst
      rw [hpost] at hst
      exact absurd hst (by decide)
    | receive rq =>
      obtain ⟨hpre, hnofin, hfin, hpres⟩ := receive_ok_status_cases happ
      cases hf : rq.finalize with
      | false =>
        have hsame := hnofin hf
        rw [hsame] at hst
        exact hpres (ih hst)
      | true =>
        rcases hfin hf with ⟨_, hall⟩ | ⟨hp, _⟩
        · exact hall
        · rw [hp] at hst
          exact absurd hst (by decide)
    | update_item iid d =>
      obtain ⟨x, hx, hy⟩ := except_map_ok happ
      obtain ⟨hpre, hpost⟩ := update_item_ok_status hx
      simp only [Prod.mk.injEq] at hy
      rw [hy.1] at hst
      rcases hpost with hp | hp <;> rw [hp] at hst
      · exact absurd hst (by decide)
      · rcases hpre with hq | hq <;> rw [hq] at hst <;> exact absurd hst (by decide)
    | update_draft_item iid q u =>
      obtain ⟨x, hx, hy⟩ := except_map_ok happ
      obtain ⟨hpre, hpost⟩ := update_draft_item_ok_status hx
      simp only [Prod.mk.injEq] at hy
      rw [hy.1] at hst
      rw [hpost] at hst
      rcases hpre with hq | hq <;> rw [hq] at hst <;> exact absurd hst (by decide)
    | delete_item iid =>
      obtain ⟨x, hx, hy⟩ := except_map_ok happ
      obtain ⟨hpre, hpost⟩ := delete_item_ok_status hx
      simp only [Prod.mk.injEq] at hy
      rw [hy.1] at hst
      rw [hpost] at hst
      rcases hpre with hq | hq <;> rw [hq] at hst <;> exact absurd hst (by decide)
    | add_item d iid =>
      obtain ⟨x, hx, hy⟩ := except_map_ok happ
      obtain ⟨hpre, hpost⟩ := add_item_ok_status hx
      simp only [Prod.mk.injEq] at hy
      rw [hy.1] at hst
      rw [hpost, hpre] at hst
      exact absurd hst (by decide)
    | add_review_it d iid =>
      obtain ⟨x, hx, hy⟩ := except_map_ok happ
      obtain ⟨hpre, hpost⟩ := add_review_item_ok_status hx
      simp only [Prod.mk.injEq] at hy
      rw [hy.1] at hst
      rw [hpost] at hst
      rcases hpre with hq | hq <;> rw [hq] at hst <;> exact absurd hst (by decide)
    | add_receiving_it d iid =>
      obtain ⟨hpre, hpost⟩ := add_receiving_item_ok_status happ
      rw [hpost] at hst
      rcases hpre with hq | hq <;> rw [hq] at hst <;> exact absurd hst (by decide)

/-- C3: every successful exposed operation relates a reachable order's
status before and after by an edge of the §4.1 transition table, or leaves
it unchanged. -/
theorem c3_status_follows_table (op : Op) (order : Order) (db : List InventoryItem)
    (now : Nat) (order' : Order) (db' : List InventoryItem)
    (hre : Reachable order db)
    (happ : applyOp op order db now = .ok (order', db')) :
    specEdge order.status order'.status = true ∨ order'.status = order.status := by
  cases op with
  | submit notes =>
    obtain ⟨x, hx, hy⟩ := except_map_ok happ
    obtain ⟨hpre, hpost⟩ := submit_ok_status hx
    simp only [Prod.mk.injEq] at hy
    left
    rw [hy.1, hpre, hpost]
    decide
  | withdraw =>
    obtain ⟨x, hx, hy⟩ := except_map_ok happ
    obtain ⟨hpre, hpost⟩ := withdraw_ok_status hx
    simp only [Prod.mk.injEq] at hy
    left
    rw [hy.1, hpost]
    rcases hpre with hq | hq | hq <;> rw [hq] <;> decide
  | review req rev =>
    obtain ⟨x, hx, hy⟩ := except_map_ok happ
    obtain ⟨hpre, hpost⟩ := review_ok_status hx
    simp only [Prod.mk.injEq] at hy
    rcases hpost with hp | hp | hp | hp
    · left; rw [hy.1, hp]; rcases hpre with hq | hq <;> rw [hq] <;> decide
    · left; rw [hy.1, hp]; rcases hpre with hq | hq <;> rw [hq] <;> decide
    · left; rw [hy.1, hp]; rcases hpre with hq | hq <;> rw [hq] <;> decide
    · right; rw [hy.1, hp]
  | resubmit notes =>
    obtain ⟨x, hx, hy⟩ := except_map_ok happ
    obtain ⟨hpre, hpost⟩ := resubmit_ok_status hx
    simp only [Prod.mk.injEq] at hy
    left
    rw [hy.1, hpost]
    rcases hpre with hq | hq <;> rw [hq] <;> decide
  | mark_ordered =>
    obtain ⟨x, hx, hy⟩ := except_map_ok happ
    obtain ⟨hpre, hpost⟩ := mark_ordered_ok_status hx
    simp only [Prod.mk.injEq] at hy
    left
    rw [hy.1, hpre, hpost]
    decide
  | unmark_ordered =>
    obtain ⟨x, hx, hy⟩ := except_map_ok happ
    obtain ⟨hpre, hpost⟩ := unmark_ordered_ok_status hx
    simp only [Prod.mk.injEq] at hy
    left
    rw [hy.1, hpre, hpost]
    decide
  | receive rq =>
    obtain ⟨hpre, hnofin, hfin, hpres⟩ := receive_ok_status_cases happ
    cases hf : rq.finalize with
    | false => exact Or.inr (hnofin hf)
    | true =>
      rcases hfin hf with ⟨hp, _⟩ | ⟨hp, hnall⟩
      · rcases hpre with hq | hq | hq
        · left; rw [hp, hq]; decide
        · left; rw [hp, hq]; decide
        · right; rw [hp, hq]
      · rcases hpre with hq | hq | hq
        · left; rw [hp, hq]; decide
        · right; rw [hp, hq]
        · exfalso
          have hall := hpres (reachable_received_all hre hq)
          rw [hall] at hnall
          exact absurd hnall (by decide)
  | update_item iid d =>
    obtain ⟨x, hx, hy⟩ := except_map_ok happ
    obtain ⟨hpre, hpost⟩ := update_item_ok_status hx
    simp only [Prod.mk.injEq] at hy
    rcases hpost with hp | hp
    · rcases hpre with hq | hq
      · left; rw [hy.1, hp, hq]; decide
      · right; rw [hy.1, hp, hq]
    · right; rw [hy.1, hp]
  | update_draft_item iid q u =>
    obtain ⟨x, hx, hy⟩ := except_map_ok happ
    obtain ⟨_, hpost⟩ := update_draft_item_ok_status hx
    simp only [Prod.mk.injEq] at hy
    right
    rw [hy.1, hpost]
  | delete_item iid =>
    obtain ⟨x, hx, hy⟩ := except_map_ok happ
    obtain ⟨_, hpost⟩ := delete_item_ok_status hx
    simp only [Prod.mk.injEq] at hy
    right
    rw [hy.1, hpost]
  | add_item d iid =>
    obtain ⟨x, hx, hy⟩ := except_map_ok happ
    obtain ⟨_, hpost⟩ := add_item_ok_status hx
    simp only [Prod.mk.injEq] at hy
    right
    rw [hy.1, hpost]
  | add_review_it d iid =>
    obtain ⟨x, hx, hy⟩ := except_map_ok happ
    obtain ⟨_, hpost⟩ := add_review_item_ok_status hx
    simp only [Prod.mk.injEq] at hy
    right
    rw [hy.1, hpost]
  | add_receiving_it d iid =>
    obtain ⟨_, hpost⟩ := add_receiving_item_ok_status happ
    right
    rw [hpost]

/-- C3 witness: submitting a freshly created one-item draft order follows the
`draft → submitted` edge. -/
theorem c3_witness :
    ∃ p, applyOp (Op.submit none) (create_order 1 [adHocGreenOnions] none [] 5 30).1
        (create_order 1 [adHocGreenOnions] none [] 5 30).2 6 = .ok p ∧
      (specEdge (create_order 1 [adHocGreenOnions] none [] 5 30).1.status p.1.status = true
        ∨ p.1.status = (create_order 1 [adHocGreenOnions] none [] 5 30).1.status) := by
  obtain ⟨p, hp⟩ : ∃ p, applyOp (Op.submit none)
      (create_order 1 [adHocGreenOnions] none [] 5 30).1
      (create_order 1 [adHocGreenOnions] none [] 5 30).2 6 = .ok p :=
    ⟨_, by with_unfolding_all rfl⟩
  exact ⟨p, hp, c3_status_follows_table (Op.submit none) _ _ 6 p.1 p.2
    (Reachable.init 1 [adHocGreenOnions] none [] 5 30) (by rw [hp])⟩

end InventoryMgmt
